import Mathlib

/-!
# Script-Scheduler: the schedule execution engine of `src/backend/server.js`

A shallow embedding of the backend: the trigger compiler `frequencyToCron`,
the process runner and execution recorder `executeScript`, the registry
`activeJobs`, the create-schedule handler and the start-up reload
`loadExistingSchedules`, over an explicit state made of the three SQLite
tables, the registry map, the cron tasks created so far and the child
processes spawned so far.

Values coming from outside the program (uuids, timestamps, the events of a
child process, the outcome of a store write, the decision of the cron library
on an expression outside the forms read here) are explicit arguments.

The store is the sequence of statements issued so far, applied in order: a
statement counts from the moment `db.run` is called with it.
-/

namespace ScriptScheduler

/-! ## JavaScript values -/

/-- JavaScript values that reach the backend through a JSON request body. The numbers are
those written as integers: `num n` is the Number nearest to the integer `n`, which is `n`
itself when `n` is below 2^53 in absolute value. -/
inductive JsVal where
  | undefined
  | null
  | bool (b : Bool)
  | num (n : Int)
  | str (s : String)
deriving DecidableEq, Repr

/-- Number of low bits that a natural number loses when it is held with 53 significant bits:
the least `s` from the given one on with `m / 2^s < 2^53`. -/
def doubleShift : Nat → Nat → Nat → Nat
  | 0, _, s => s
  | fuel + 1, m, s => if m / 2 ^ s < 2 ^ 53 then s else doubleShift fuel m (s + 1)

/-- The natural number with 53 significant bits nearest to `m`, ties going to the even one: the
value of the Number that stands for `m`. -/
def roundToDouble (m : Nat) : Nat :=
  let shift := doubleShift 1100 m 0
  let q := m / 2 ^ shift
  let r := m % 2 ^ shift
  let half := 2 ^ (shift - 1)
  if shift = 0 then m
  else if half < r || (r == half && q % 2 == 1) then (q + 1) * 2 ^ shift
  else q * 2 ^ shift

/-- The multiple of a power of ten with `k` significant digits that is nearest to the Number
`x` and is read back as `x`, if there is one. -/
def shortestCandidate (x k : Nat) : Option Nat :=
  let e := (toString x).length - k
  let lo := x / 10 ^ e * 10 ^ e
  let hi := lo + 10 ^ e
  let okLo := roundToDouble lo == x
  let okHi := roundToDouble hi == x
  if okLo && okHi then
    if x - lo < hi - x then some lo
    else if hi - x < x - lo then some hi
    else if (lo / 10 ^ e) % 2 == 0 then some lo else some hi
  else if okLo then some lo
  else if okHi then some hi
  else none

/-- The number with the fewest significant digits that is read back as the Number `x`. -/
def shortestValue (x : Nat) : Nat :=
  ((List.range 17).findSome? (fun i => shortestCandidate x (i + 1))).getD x

/-- A string of digits without its zeros at the end. -/
def stripZeros (cs : List Char) : List Char :=
  (cs.reverse.dropWhile (fun c => c == '0')).reverse

/-- Exponent form of a number of more than 21 digits: `de+n` or `d.ddde+n`. -/
def exponentText (y : Nat) : String :=
  match stripZeros (toString y).data with
  | [] => "0"
  | [d] => String.mk [d] ++ "e+" ++ toString ((toString y).length - 1)
  | d :: ds =>
    String.mk [d] ++ "." ++ String.mk ds ++ "e+" ++ toString ((toString y).length - 1)

/-- Text of the Number that stands for the natural number `m` (Number::toString, radix 10):
the decimal digits of `m` below 2^53; above, the shortest digits that are read back as the
Number, padded with zeros up to 21 digits and in exponent form from 1e21 on; `Infinity` where
the Number overflows. -/
def numberText (m : Nat) : String :=
  if m < 2 ^ 53 then toString m
  else if 971 < doubleShift 1100 (roundToDouble m) 0 then "Infinity"
  else if shortestValue (roundToDouble m) < 10 ^ 21 then
    toString (shortestValue (roundToDouble m))
  else exponentText (shortestValue (roundToDouble m))

/-- String conversion performed by a template literal. -/
def JsVal.toStr : JsVal → String
  | .undefined => "undefined"
  | .null => "null"
  | .bool true => "true"
  | .bool false => "false"
  | .num (Int.ofNat m) => numberText m
  | .num (Int.negSucc m) => "-" ++ numberText (m + 1)
  | .str s => s

/-- Truthiness, as tested by the operator `!` in the request guard. -/
def JsVal.truthy : JsVal → Bool
  | .undefined => false
  | .null => false
  | .bool b => b
  | .num n => n != 0
  | .str s => s != ""

/-! ## Trigger compiler -/

/-- Function `frequencyToCron` of server.js, lines 98-109: a switch on the type with strict
equality, a template literal for each of the three cases, a thrown error otherwise. -/
def frequencyToCron (type value : JsVal) : Except String String :=
  match type with
  | .str "minutes" => .ok ("*/" ++ value.toStr ++ " * * * *")
  | .str "hours" => .ok ("0 */" ++ value.toStr ++ " * * *")
  | .str "days" => .ok ("0 0 */" ++ value.toStr ++ " * *")
  | _ => .error "Invalid frequency type"

/-! ## Reading a five-field cron expression

The expression is handed to the cron library. Only expressions whose first four fields have
one of the three forms that `frequencyToCron` produces, `*`, `*/n` and a number, and whose
day-of-week field is `*`, are read here. What the library does with any other text is not
modelled: whether it accepts such a text is taken from outside, when it fires is left open. -/

/-- One field of a cron expression. -/
inductive CronField where
  | star
  | step (n : Nat)
  | lit (n : Nat)
deriving DecidableEq, Repr

/-- A five-field cron expression. -/
structure CronExpr where
  minute : CronField
  hour : CronField
  dayOfMonth : CronField
  month : CronField
  dayOfWeek : CronField
deriving DecidableEq, Repr

/-- A wall-clock instant at minute resolution, in local time. -/
structure WallClock where
  minute : Nat
  hour : Nat
  dayOfMonth : Nat
  month : Nat
  dayOfWeek : Nat
deriving DecidableEq, Repr

/-- Value of a string of decimal digits read left to right from the accumulator `a`. -/
def decValue (a : Nat) (cs : List Char) : Nat :=
  cs.foldl (fun acc c => acc * 10 + (c.toNat - 48)) a

/-- Decimal number: a non-empty string of digits. -/
def parseDec (cs : List Char) : Option Nat :=
  if cs ≠ [] ∧ cs.all Char.isDigit then some (decValue 0 cs) else none

/-- One cron field: `*`, `*/n` or `n`. -/
def parseField : List Char → Option CronField
  | ['*'] => some .star
  | '*' :: '/' :: ds => (parseDec ds).map .step
  | ds => (parseDec ds).map .lit

/-- Fields of an expression: the maximal runs without a blank. -/
def splitFields : List Char → List (List Char)
  | [] => [[]]
  | c :: cs =>
    if c = ' ' then [] :: splitFields cs
    else
      match splitFields cs with
      | [] => [[c]]
      | f :: fs => (c :: f) :: fs

/-- Reading of a five-field expression; `none` when it does not have five readable fields. -/
def parseCron (s : String) : Option CronExpr :=
  match (splitFields s.data).map parseField with
  | [some mi, some ho, some dm, some mo, some dw] => some ⟨mi, ho, dm, mo, dw⟩
  | _ => none

/-- Whether a field admits the value `x`: a step field `*/n` admits the values of the field's
range that are divisible by `n`. -/
def CronField.admits : CronField → Nat → Bool
  | .star, _ => true
  | .step n, x => n != 0 && x % n == 0
  | .lit n, x => x == n

/-- Whether the expression fires at the instant `t`. -/
def CronExpr.firesAt (e : CronExpr) (t : WallClock) : Bool :=
  e.minute.admits t.minute && e.hour.admits t.hour && e.dayOfMonth.admits t.dayOfMonth
    && e.month.admits t.month && e.dayOfWeek.admits t.dayOfWeek

/-- Whether the field is accepted for the range `lo..hi`: a number has to lie in the range,
and a step `*/n` has to leave at least one value of the range, that is, some value of the
range has to be divisible by `n`. -/
def CronField.inRange (lo hi : Nat) : CronField → Bool
  | .star => true
  | .step n => n != 0 && ((List.range (hi + 1)).filter (fun x => lo ≤ x)).any (fun x => x % n == 0)
  | .lit n => decide (lo ≤ n) && decide (n ≤ hi)

/-- Whether an expression of the forms read here is accepted: minute 0..59, hour 0..23, day of
the month 1..31, month 1..12. -/
def CronExpr.valid (e : CronExpr) : Bool :=
  e.minute.inRange 0 59 && e.hour.inRange 0 23 && e.dayOfMonth.inRange 1 31
    && e.month.inRange 1 12

/-- The expression of the text, when it has the forms read here. -/
def readCron (s : String) : Option CronExpr :=
  match parseCron s with
  | some e => if e.dayOfWeek = .star then some e else none
  | none => none

/-- Whether `cron.schedule` accepts the text (otherwise it throws). For a text of the forms read
here this is `CronExpr.valid`; for any other text the decision of the library, `lib`, is taken
from outside. -/
def cronAccepts (lib : String → Bool) (s : String) : Bool :=
  match readCron s with
  | some e => e.valid
  | none => lib s

/-- Whether the trigger scheduled with the text `s` fires at `t`: known for the texts of the
forms read here (a rejected one has no trigger and never fires), `none` for any other text. -/
def triggerFiresAt (s : String) (t : WallClock) : Option Bool :=
  match readCron s with
  | some e => some (e.valid && e.firesAt t)
  | none => none

/-! ## Calendar

Days are counted from epoch-day 0, the first of January 1970, in the proleptic
Gregorian calendar and in local time. -/

/-- Day of the month (1..31) and month (1..12) of the day `days` after 1970-01-01. -/
def civilFromDays (days : Nat) : Nat × Nat :=
  let z := days + 719468
  let doe := z % 146097
  let yoe := (doe - doe / 1460 + doe / 36524 - doe / 146096) / 365
  let doy := doe - (365 * yoe + yoe / 4 - yoe / 100)
  let mp := (5 * doy + 2) / 153
  let d := doy - (153 * mp + 2) / 5 + 1
  let m := if mp < 10 then mp + 3 else mp - 9
  (d, m)

/-- Wall-clock instant at `hour:minute` of the day `days` after 1970-01-01 (a Thursday). -/
def wallClockAt (days hour minute : Nat) : WallClock :=
  { minute := minute
    hour := hour
    dayOfMonth := (civilFromDays days).1
    month := (civilFromDays days).2
    dayOfWeek := (days + 4) % 7 }

/-! ## Durable store: the three SQLite tables of server.js, lines 27-60 -/

/-- Row of table `scripts`. -/
structure ScriptRow where
  id : String
  name : String
  filename : String
  type : String
deriving DecidableEq, Repr

/-- Row of table `schedules`, as the values bound to its INSERT; `cron_expression` is the text
computed by the create handler. The conversion that the type affinity of a column applies to
a bound value when it is stored (a numeric text in an INTEGER column becomes a number) is not
modelled. -/
structure ScheduleRow where
  id : String
  script_id : JsVal
  frequency_type : JsVal
  frequency_value : JsVal
  start_time : JsVal
  end_time : JsVal
  is_active : Bool
  cron_expression : String
deriving DecidableEq, Repr

/-- Row of table `executions`; a column that was never written is `none` (NULL). -/
structure ExecutionRow where
  id : String
  schedule_id : String
  status : String
  started_at : String
  finished_at : Option String
  stdout : Option String
  stderr : Option String
  exit_code : Option Int
deriving DecidableEq, Repr

/-- The durable store. -/
structure Store where
  scripts : List ScriptRow
  schedules : List ScheduleRow
  executions : List ExecutionRow
deriving DecidableEq, Repr

/-- Query `SELECT * FROM scripts WHERE id = ?`: the first row with that id. -/
def Store.getScript (st : Store) (scriptId : JsVal) : Option ScriptRow :=
  st.scripts.find? (fun r => decide (JsVal.str r.id = scriptId))

/-! ## In-memory state -/

/-- A task created by `cron.schedule`: its expression, the variables captured by its
callback, and whether it is started. A task exists only for an expression that `cron.schedule`
accepted, see `cronAccepts`. -/
structure CronTask where
  expression : String
  scheduleId : String
  scriptName : String
  scriptPath : String
  scriptType : String
  started : Bool
deriving DecidableEq, Repr

/-- Value with which the promise of `executeScript` resolves: the object of line 153 (close) or
the one of line 164 (error), which has no `code` field. -/
inductive ExecResult where
  | exited (executionId status : String) (code : Option Int) (stdout stderr : String)
  | spawnError (executionId status : String) (error : String)
deriving DecidableEq, Repr

/-- A spawned child process together with the closure of its `executeScript` call: the
command and arguments given to `spawn`, the two buffers, and the resolved value if any. -/
structure Child where
  executionId : String
  command : String
  args : List String
  stdout : String
  stderr : String
  resolved : Option ExecResult
deriving DecidableEq, Repr

/-- Whole state of the backend: the store, the map `activeJobs` from schedule id to the handle
of a cron task, every cron task created so far and every child process spawned so far.
A handle is the position of the task in `tasks`. -/
structure Sys where
  store : Store
  activeJobs : String → Option Nat
  tasks : List CronTask
  children : List Child

/-- Method `Map.set`. -/
def mapSet (m : String → Option Nat) (k : String) (v : Nat) : String → Option Nat :=
  fun x => if x = k then some v else m x

/-- Method `Map.delete`. -/
def mapDelete (m : String → Option Nat) (k : String) : String → Option Nat :=
  fun x => if x = k then none else m x

/-- Replace the element at position `i`, if there is one, by its image under `f`. -/
def updateAt {α : Type} (f : α → α) : Nat → List α → List α
  | _, [] => []
  | 0, x :: xs => f x :: xs
  | i + 1, x :: xs => x :: updateAt f i xs

/-- Constant `SCRIPTS_DIR`. -/
def SCRIPTS_DIR : String := "./uploads/scripts"

/-- Call `path.join(SCRIPTS_DIR, filename)` on a POSIX system for a file name without a
separator or a dot segment: the result is normalised, so the leading `./` of the directory is
dropped. -/
def scriptPathOf (filename : String) : String := "uploads/scripts" ++ "/" ++ filename

/-! ## Process runner and execution recorder: `executeScript`, lines 115-167 -/

/-- What one call of `executeScript` takes from outside: the uuid, the clock, the platform,
and whether the store accepts the INSERT. -/
structure FireEnv where
  executionId : String
  startTime : String
  isWindows : Bool
  insertOk : Bool

/-- Events of a child process. The last two carry the clock reading of their handler and
whether the store accepts the UPDATE issued there. -/
inductive ChildEvent where
  | stdoutData (data : String)
  | stderrData (data : String)
  | close (code : Option Int) (finishTime : String) (updateOk : Bool)
  | error (message : String) (finishTime : String) (updateOk : Bool)
deriving DecidableEq, Repr

/-- Statement `INSERT INTO executions (id, schedule_id, status, started_at)`; `id` is the
primary key, so a second row with the same id is rejected. A rejected statement leaves the
store as it is; what becomes of the process then is in `executeScript`. -/
def Store.insertExecution (st : Store) (ok : Bool) (id scheduleId status startedAt : String) :
    Store :=
  if ok && !(st.executions.any (fun r => r.id == id)) then
    { st with executions := st.executions ++
        [{ id := id, schedule_id := scheduleId, status := status, started_at := startedAt,
           finished_at := none, stdout := none, stderr := none, exit_code := none }] }
  else st

/-- Statement `UPDATE executions SET status, finished_at, stdout, stderr, exit_code WHERE id`. -/
def Store.updateOnClose (st : Store) (ok : Bool) (id status finishTime out err : String)
    (code : Option Int) : Store :=
  if ok then
    { st with executions := st.executions.map (fun r =>
        if r.id = id then
          { r with status := status, finished_at := some finishTime, stdout := some out,
                   stderr := some err, exit_code := code }
        else r) }
  else st

/-- Statement `UPDATE executions SET status, finished_at, stderr WHERE id`. -/
def Store.updateOnError (st : Store) (ok : Bool) (id status finishTime message : String) :
    Store :=
  if ok then
    { st with executions := st.executions.map (fun r =>
        if r.id = id then
          { r with status := status, finished_at := some finishTime, stderr := some message }
        else r) }
  else st

/-- A promise keeps the first value it is resolved with. -/
def resolveWith (old : Option ExecResult) (r : ExecResult) : Option ExecResult :=
  match old with
  | some v => some v
  | none => some r

/-- First part of `executeScript`, lines 116-130: the INSERT of the running record is issued
without a callback, then the command is chosen and `spawn` is called. The handle of the new
child is its position, `s.children.length`. -/
def executeScriptBegin (env : FireEnv) (scheduleId scriptPath scriptType : String) (s : Sys) :
    Sys :=
  let store1 := s.store.insertExecution env.insertOk env.executionId scheduleId "running"
    env.startTime
  let useCmd := scriptType == "bat" || env.isWindows
  let command := if useCmd then "cmd" else "bash"
  let args := if useCmd then ["/c", scriptPath] else [scriptPath]
  { s with
    store := store1
    children := s.children ++
      [{ executionId := env.executionId, command := command, args := args,
         stdout := "", stderr := "", resolved := none }] }

/-- Status computed by the close handler, line 145: `code === 0 ? 'success' : 'failed'`. -/
def exitStatus (code : Option Int) : String :=
  if code = some 0 then "success" else "failed"

/-- The four handlers of lines 135-165, applied to the child and the store. -/
def handleEvent (ev : ChildEvent) (c : Child) (st : Store) : Child × Store :=
  match ev with
  | .stdoutData data => ({ c with stdout := c.stdout ++ data }, st)
  | .stderrData data => ({ c with stderr := c.stderr ++ data }, st)
  | .close code finishTime ok =>
    ({ c with resolved :=
        resolveWith c.resolved (.exited c.executionId (exitStatus code) code c.stdout c.stderr) },
      st.updateOnClose ok c.executionId (exitStatus code) finishTime c.stdout c.stderr code)
  | .error message finishTime ok =>
    ({ c with resolved := resolveWith c.resolved (.spawnError c.executionId "failed" message) },
      st.updateOnError ok c.executionId "failed" finishTime message)

/-- Delivery of one event to the child with handle `idx`. -/
def childStep (idx : Nat) (ev : ChildEvent) (s : Sys) : Sys :=
  match s.children.get? idx with
  | none => s
  | some c =>
    { s with
      store := (handleEvent ev c s.store).2
      children := updateAt (fun _ => (handleEvent ev c s.store).1) idx s.children }

/-- Resolved value of the promise of the child with handle `idx`, if any. -/
def resolvedOf (idx : Nat) (s : Sys) : Option ExecResult :=
  (s.children.get? idx).bind (fun c => c.resolved)

/-- Events of the child are delivered in order until its promise is resolved: the state in
which a caller that awaits `executeScript` resumes. -/
def awaitChild (idx : Nat) : List ChildEvent → Sys → Sys
  | [], s => s
  | ev :: rest, s =>
    if (resolvedOf idx (childStep idx ev s)).isSome then childStep idx ev s
    else awaitChild idx rest (childStep idx ev s)

/-- Whether the store accepts the INSERT of the running record: it is not rejected from outside
and the id is new. -/
def insertAccepted (env : FireEnv) (s : Sys) : Bool :=
  env.insertOk && !(s.store.executions.any (fun r => r.id == env.executionId))

/-- Whether the store accepts the statement issued by the handler of the event. -/
def ChildEvent.writeOk : ChildEvent → Bool
  | .close _ _ ok => ok
  | .error _ _ ok => ok
  | _ => true

/-- Function `executeScript` awaited to its resolution: the state then and the resolved value
(`none` when the promise is never resolved). The INSERT is issued without a callback, so a
rejected INSERT is an error that nothing handles and that ends the process after `spawn` was
called: no event of the child is delivered then. -/
def executeScript (env : FireEnv) (events : List ChildEvent)
    (scheduleId scriptPath scriptType : String) (s : Sys) : Sys × Option ExecResult :=
  if insertAccepted env s then
    (awaitChild s.children.length events
        (executeScriptBegin env scheduleId scriptPath scriptType s),
      resolvedOf s.children.length
        (awaitChild s.children.length events
          (executeScriptBegin env scheduleId scriptPath scriptType s)))
  else (executeScriptBegin env scheduleId scriptPath scriptType s, none)

/-- Every event of the list is delivered to the child, also those that follow the resolution of
its promise. -/
def deliverAll (idx : Nat) (events : List ChildEvent) (s : Sys) : Sys :=
  events.foldl (fun st ev => childStep idx ev st) s

/-! ## Create-schedule handler, lines 200-252 -/

/-- Body of a create-schedule request. -/
structure CreateReq where
  scriptId : JsVal
  frequencyType : JsVal
  frequencyValue : JsVal
  startTime : JsVal
  endTime : JsVal
  runImmediately : JsVal

/-- What one run of the create handler takes from outside: the uuid of the schedule, whether
the store accepts the INSERT, whether the script query succeeds, the decision of the cron
library on the texts that are not read here, and for the immediate run the environment and
child events of `executeScript`. -/
structure CreateEnv where
  scheduleId : String
  insertOk : Bool
  lookupOk : Bool
  cronLib : String → Bool
  fire : FireEnv
  events : List ChildEvent

/-- Outcome of a handler: a JSON response with its status, an exception thrown out of the
handler, no response yet (the handler is still awaiting), or no response at all: the handler
was ended by an error that nothing handles, an exception inside an `async` callback or an
`error` event without a listener, on which the runtime ends the process. -/
inductive Response where
  | json (status : Nat) (body : List (String × String))
  | threw (message : String)
  | pending
  | unanswered
deriving DecidableEq, Repr

/-- Where the create handler stands when it returns to the event loop for the first time: it
is done, or it awaits the promise of the child with the given handle and will answer with the
given body. -/
inductive CreateStep where
  | done (r : Response) (s : Sys)
  | awaiting (child : Nat) (body : List (String × String)) (s : Sys)

/-- Statement `INSERT INTO schedules (...)` of line 211; `is_active` takes its default 1 and
`id` is the primary key. The result tells whether the row was accepted. -/
def Store.insertSchedule (st : Store) (ok : Bool) (row : ScheduleRow) : Bool × Store :=
  if ok && !(st.schedules.any (fun r => r.id == row.id)) then
    (true, { st with schedules := st.schedules ++ [row] })
  else (false, st)

/-- Handler of `POST /api/schedule` up to its first return to the event loop: lines 201-239.
`cron.schedule` throws on an expression it rejects; thrown in the `async` callback of the
script query, after the INSERT, the exception is handled by nothing: the handler stops there
and sends no response. The trigger is started before the immediate run is begun. -/
def createScheduleStart (req : CreateReq) (env : CreateEnv) (s : Sys) : CreateStep :=
  if !req.scriptId.truthy || !req.frequencyType.truthy || !req.frequencyValue.truthy then
    .done (.json 400 [("error", "Missing required fields")]) s
  else
    match frequencyToCron req.frequencyType req.frequencyValue with
    | .error message => .done (.threw message) s
    | .ok cronExpression =>
      let ins := s.store.insertSchedule env.insertOk
        { id := env.scheduleId, script_id := req.scriptId,
          frequency_type := req.frequencyType, frequency_value := req.frequencyValue,
          start_time := req.startTime, end_time := req.endTime, is_active := true,
          cron_expression := cronExpression }
      if !ins.1 then .done (.json 500 [("error", "Database error")]) s
      else
        let s1 : Sys := { s with store := ins.2 }
        match (if env.lookupOk then s1.store.getScript req.scriptId else none) with
        | none => .done (.json 404 [("error", "Script not found")]) s1
        | some script =>
          if !cronAccepts env.cronLib cronExpression then .done .unanswered s1
          else
            let scriptPath := scriptPathOf script.filename
            let job := s1.tasks.length
            let s2 : Sys :=
              { s1 with
                tasks := s1.tasks ++
                  [{ expression := cronExpression, scheduleId := env.scheduleId,
                     scriptName := script.name, scriptPath := scriptPath,
                     scriptType := script.type, started := false }] }
            let s3 : Sys := { s2 with activeJobs := mapSet s2.activeJobs env.scheduleId job }
            let s4 : Sys :=
              { s3 with tasks := updateAt (fun t => { t with started := true }) job s3.tasks }
            let body : List (String × String) :=
              [("id", env.scheduleId), ("scriptName", script.name),
               ("frequency", req.frequencyValue.toStr ++ " " ++ req.frequencyType.toStr),
               ("cronExpression", cronExpression),
               ("message", "Schedule created successfully")]
            if req.runImmediately.truthy then
              if insertAccepted env.fire s4 then
                .awaiting s4.children.length body
                  (executeScriptBegin env.fire env.scheduleId scriptPath script.type s4)
              else
                .done .unanswered
                  (executeScriptBegin env.fire env.scheduleId scriptPath script.type s4)
            else .done (.json 200 body) s4

/-- State of the backend at that point of the create handler. -/
def CreateStep.sys : CreateStep → Sys
  | .done _ s => s
  | .awaiting _ _ s => s

/-- Handle of the child whose promise the create handler awaits and the body it will answer
with, if it awaits. -/
def CreateStep.awaited : CreateStep → Option (Nat × List (String × String))
  | .done _ _ => none
  | .awaiting child body _ => some (child, body)

/-- Continuation of the create handler after its `await`, lines 242-248: once the promise of
the child is resolved, in whatever state the backend then is, the response is sent. -/
def createScheduleResume (child : Nat) (body : List (String × String)) (s : Sys) :
    Option Response :=
  if (resolvedOf child s).isSome then some (.json 200 body) else none

/-- Handler of `POST /api/schedule` run without any other step of the backend in between: when
it awaits, the events of its own child are delivered until the promise is resolved. -/
def createSchedule (req : CreateReq) (env : CreateEnv) (s : Sys) : Response × Sys :=
  match createScheduleStart req env s with
  | .done r s1 => (r, s1)
  | .awaiting child body s1 =>
    match createScheduleResume child body (awaitChild child env.events s1) with
    | some r => (r, awaitChild child env.events s1)
    | none => (.pending, awaitChild child env.events s1)

/-! ## Start-up reload: `loadExistingSchedules`, lines 349-371 -/

/-- What the reload takes from outside: whether the query for the active schedules succeeds,
for each of them whether the query for its script does, and the decision of the cron library
on the texts that are not read here. -/
structure LoadEnv where
  queryOk : Bool
  lookupOk : ScheduleRow → Bool
  cronLib : String → Bool

/-- Callback of lines 357-368 for one schedule row: the script is looked up, a missing one
ends the callback, otherwise `cron.schedule` is called with the stored `cron_expression` and
default options (the task is started) and the handle is put into `activeJobs`. When
`cron.schedule` rejects the expression it throws in this callback, nothing handles the
exception and the process ends: `none`. -/
def loadOne (env : LoadEnv) (s : Sys) (schedule : ScheduleRow) : Option Sys :=
  match (if env.lookupOk schedule then s.store.getScript schedule.script_id else none) with
  | none => some s
  | some script =>
    if cronAccepts env.cronLib schedule.cron_expression then
      some
        { s with
          tasks := s.tasks ++
            [{ expression := schedule.cron_expression, scheduleId := schedule.id,
               scriptName := script.name, scriptPath := scriptPathOf script.filename,
               scriptType := script.type, started := true }]
          activeJobs := mapSet s.activeJobs schedule.id s.tasks.length }
    else none

/-- State that the callback leaves for a row whose script is missing or whose expression
`cron.schedule` accepts: the first and the second outcome of `loadOne`. -/
def registerRow (env : LoadEnv) (s : Sys) (schedule : ScheduleRow) : Sys :=
  match (if env.lookupOk schedule then s.store.getScript schedule.script_id else none) with
  | none => s
  | some script =>
    { s with
      tasks := s.tasks ++
        [{ expression := schedule.cron_expression, scheduleId := schedule.id,
           scriptName := script.name, scriptPath := scriptPathOf script.filename,
           scriptType := script.type, started := true }]
      activeJobs := mapSet s.activeJobs schedule.id s.tasks.length }

/-- The callback run for each row in turn, as long as the process lives. -/
def loadRows (env : LoadEnv) : List ScheduleRow → Sys → Option Sys
  | [], s => some s
  | r :: rs, s =>
    match loadOne env s r with
    | none => none
    | some s1 => loadRows env rs s1

/-- Function `loadExistingSchedules`: the rows with `is_active = 1` are read and the callback
is run for each of them, in the order of the rows. The result is the state of the backend
after it, or `none` when the process was ended by an exception of `cron.schedule`. -/
def loadExistingSchedules (env : LoadEnv) (s : Sys) : Option Sys :=
  if !env.queryOk then some s
  else loadRows env (s.store.schedules.filter (fun r => r.is_active)) s

/-! ## Trigger fires and overlapping runs -/

/-- A fire of the cron task with handle `job`: its callback calls `executeScript` with the
captured variables. A task that does not exist or is stopped does not fire. -/
def triggerFire (job : Nat) (env : FireEnv) (s : Sys) : Sys :=
  match s.tasks.get? job with
  | none => s
  | some t =>
    if t.started then executeScriptBegin env t.scheduleId t.scriptPath t.scriptType s else s

/-- Steps of the running backend: a started task fires, the create handler starts its immediate
run, or an event of a child process is delivered. The statement that a step issues is accepted
by the store: a rejected one ends the process and is followed by no step. -/
inductive Step : Sys → Sys → Prop where
  | fire (s : Sys) (job : Nat) (env : FireEnv) : insertAccepted env s = true →
      Step s (triggerFire job env s)
  | immediate (s : Sys) (env : FireEnv) (scheduleId scriptPath scriptType : String) :
      insertAccepted env s = true →
      Step s (executeScriptBegin env scheduleId scriptPath scriptType s)
  | event (s : Sys) (idx : Nat) (ev : ChildEvent) : ev.writeOk = true →
      Step s (childStep idx ev s)

/-- States reachable from `s0` by the steps. -/
inductive Reachable (s0 : Sys) : Sys → Prop where
  | init : Reachable s0 s0
  | step {s t : Sys} : Reachable s0 s → Step s t → Reachable s0 t

/-- Number of Execution rows of the schedule with status `running`. -/
def runningCount (s : Sys) (scheduleId : String) : Nat :=
  (s.store.executions.filter
    (fun r => decide (r.schedule_id = scheduleId) && decide (r.status = "running"))).length

/-- Number of started cron tasks whose callback runs the schedule. -/
def startedJobs (s : Sys) (scheduleId : String) : Nat :=
  (s.tasks.filter (fun t => t.started && decide (t.scheduleId = scheduleId))).length

/-- Concatenation of the chunks written to standard output, in order. -/
def stdoutOf : List ChildEvent → String
  | [] => ""
  | .stdoutData d :: rest => d ++ stdoutOf rest
  | _ :: rest => stdoutOf rest

/-- Concatenation of the chunks written to standard error, in order. -/
def stderrOf : List ChildEvent → String
  | [] => ""
  | .stderrData d :: rest => d ++ stderrOf rest
  | _ :: rest => stderrOf rest

/-- Whether the event is a chunk of output. -/
def ChildEvent.isData : ChildEvent → Bool
  | .stdoutData _ => true
  | .stderrData _ => true
  | _ => false

/-- The empty backend state over a store: nothing registered, created or spawned. -/
def Sys.fresh (st : Store) : Sys :=
  { store := st, activeJobs := fun _ => none, tasks := [], children := [] }

/-- Whether the reload finds the script of a schedule row: the query succeeds and returns a
row. -/
def scriptFound (env : LoadEnv) (st : Store) (r : ScheduleRow) : Bool :=
  (if env.lookupOk r then st.getScript r.script_id else none).isSome

/-- Every Active row of the store whose script the reload finds carries an expression that
`cron.schedule` accepts. -/
def expressionsAccepted (env : LoadEnv) (st : Store) : Prop :=
  ∀ r ∈ st.schedules, r.is_active = true → scriptFound env st r = true →
    cronAccepts env.cronLib r.cron_expression = true

/-- Number of active schedule rows with the given id whose script the reload finds; the id is
the primary key, so this is 0 or 1 in a store that satisfies its key constraint. -/
def activeWithScript (env : LoadEnv) (st : Store) (id : String) : Nat :=
  (st.schedules.filter
    (fun r => r.is_active && (decide (r.id = id) && scriptFound env st r))).length

/-- Every registered handle is the position of a started task of its schedule. -/
def handlesValid (s : Sys) : Prop :=
  ∀ (id : String) (h : Nat), s.activeJobs id = some h →
    ∃ t : CronTask, s.tasks.get? h = some t ∧ t.scheduleId = id ∧ t.started = true

/-! ## Delete handler, lines 306-331 -/

/-- What one run of the delete handler takes from outside: whether the store accepts the
UPDATE. -/
structure DeleteEnv where
  updateOk : Bool

/-- Statement `UPDATE schedules SET is_active = 0 WHERE id = ?`: `none` when the store rejects
it, otherwise the number of rows it changed (`this.changes`, the rows with that id, active or
not) and the store after it. -/
def Store.deactivateSchedule (st : Store) (ok : Bool) (id : String) : Option Nat × Store :=
  if ok then
    (some (st.schedules.filter (fun r => decide (r.id = id))).length,
      { st with schedules := st.schedules.map (fun r =>
          if r.id = id then { r with is_active := false } else r) })
  else (none, st)

/-- Lines 310-313: a job registered under the id is stopped and its entry deleted. -/
def stopJob (id : String) (s : Sys) : Sys :=
  match s.activeJobs id with
  | some job =>
    { s with
      tasks := updateAt (fun t => { t with started := false }) job s.tasks
      activeJobs := mapDelete s.activeJobs id }
  | none => s

/-- Handler of `DELETE /api/schedules/:id`. -/
def deleteSchedule (id : String) (env : DeleteEnv) (s : Sys) : Response × Sys :=
  match (stopJob id s).store.deactivateSchedule env.updateOk id with
  | (none, _) => (.json 500 [("error", "Database error")], stopJob id s)
  | (some changes, st) =>
    if changes = 0 then
      (.json 404 [("error", "Schedule not found")], { stopJob id s with store := st })
    else
      (.json 200 [("message", "Schedule deleted successfully")], { stopJob id s with store := st })

/-- State of the create handler after lines 210-235, when the row was accepted and the script
found: the row is in the table, the task is created, registered and started. -/
def registeredSys (req : CreateReq) (env : CreateEnv) (s : Sys) (cron : String)
    (script : ScriptRow) : Sys :=
  { store :=
      { s.store with
        schedules := s.store.schedules ++
          [{ id := env.scheduleId, script_id := req.scriptId,
             frequency_type := req.frequencyType, frequency_value := req.frequencyValue,
             start_time := req.startTime, end_time := req.endTime, is_active := true,
             cron_expression := cron }] }
    activeJobs := mapSet s.activeJobs env.scheduleId s.tasks.length
    tasks := s.tasks ++
      [{ expression := cron, scheduleId := env.scheduleId, scriptName := script.name,
         scriptPath := scriptPathOf script.filename, scriptType := script.type,
         started := true }]
    children := s.children }

/-- Body of the response of lines 242-248. -/
def createdBody (req : CreateReq) (env : CreateEnv) (cron : String) (script : ScriptRow) :
    List (String × String) :=
  [("id", env.scheduleId), ("scriptName", script.name),
   ("frequency", req.frequencyValue.toStr ++ " " ++ req.frequencyType.toStr),
   ("cronExpression", cron), ("message", "Schedule created successfully")]

/-- The immediate run of a create request as seen in a state of the backend: the child with
handle `idx` is the one spawned for the execution `e`, the executions table holds exactly one
record with id `e`, that record belongs to the schedule `sid`, and once the promise of the
child is resolved the record is no longer `running`. -/
def immediateRunRecorded (idx : Nat) (e sid : String) (t : Sys) : Prop :=
  (∃ c : Child, t.children.get? idx = some c ∧ c.executionId = e) ∧
  (t.store.executions.filter (fun r => decide (r.id = e))).length = 1 ∧
  (∀ r ∈ t.store.executions, r.id = e → r.schedule_id = sid) ∧
  ((resolvedOf idx t).isSome = true →
    ∀ r ∈ t.store.executions, r.id = e → r.status ≠ "running")

/-! ## Sample inputs -/

/-- A store with one script and no schedule. -/
def sampleStore : Store :=
  { scripts := [{ id := "a", name := "a.sh", filename := "a_a.sh", type := "sh" }]
    schedules := []
    executions := [] }

/-- A create request for the script of `sampleStore` with frequency ('weeks', 1). -/
def sampleWeeksReq : CreateReq :=
  { scriptId := .str "a", frequencyType := .str "weeks", frequencyValue := .num 1,
    startTime := .undefined, endTime := .undefined, runImmediately := .bool true }

/-- An environment in which the store accepts every statement, the cron library rejects every
text that is not read here, and the child exits with 0. -/
def sampleCreateEnv : CreateEnv :=
  { scheduleId := "s", insertOk := true, lookupOk := true, cronLib := fun _ => false,
    fire := { executionId := "e", startTime := "t0", isWindows := false, insertOk := true },
    events := [.close (some 0) "t1" true] }

/-- The environment of one fire in which the store accepts the INSERT. -/
def sampleFireEnv : FireEnv :=
  { executionId := "e", startTime := "t0", isWindows := false, insertOk := true }

/-- The environment of one fire in which the store rejects the INSERT. -/
def sampleRejectEnv : FireEnv :=
  { executionId := "e", startTime := "t0", isWindows := false, insertOk := false }

/-- Some output of a child: two chunks on standard output around one on standard error. -/
def sampleOutput : List ChildEvent :=
  [.stdoutData "a", .stderrData "b", .stdoutData "c"]

/-- A store with one script and one active schedule `s`, every 5 minutes. -/
def sampleScheduleStore : Store :=
  { scripts := [{ id := "a", name := "a.sh", filename := "a_a.sh", type := "sh" }]
    schedules :=
      [{ id := "s", script_id := .str "a", frequency_type := .str "minutes",
         frequency_value := .num 5, start_time := .undefined, end_time := .undefined,
         is_active := true, cron_expression := "*/5 * * * *" }]
    executions := [] }

/-- An environment of the reload in which every query succeeds and the cron library rejects
every text that is not read here. -/
def sampleLoadEnv : LoadEnv :=
  { queryOk := true, lookupOk := fun _ => true, cronLib := fun _ => false }

/-- The backend after start-up over `sampleScheduleStore`: one started task, with handle 0,
for the schedule `s`. -/
def sampleLoaded : Sys :=
  (loadExistingSchedules sampleLoadEnv (Sys.fresh sampleScheduleStore)).getD
    (Sys.fresh sampleScheduleStore)

/-- The environment of a fire with execution id `id`, the store accepting the INSERT. -/
def fireEnvOf (id : String) : FireEnv :=
  { executionId := id, startTime := "t0", isWindows := false, insertOk := true }

/-- A store whose only schedule row has the frequency fields ('minutes', 5) and a stored
`cron_expression` that is not the one compiled from them. -/
def sampleStaleStore : Store :=
  { scripts := [{ id := "a", name := "a.sh", filename := "a_a.sh", type := "sh" }]
    schedules :=
      [{ id := "s", script_id := .str "a", frequency_type := .str "minutes",
         frequency_value := .num 5, start_time := .undefined, end_time := .undefined,
         is_active := true, cron_expression := "0 0 1 1 *" }]
    executions := [] }

/-- A store with an active schedule `s` whose script exists, an inactive schedule `i`, and an
active schedule `m` whose script is missing. -/
def sampleMixedStore : Store :=
  { scripts := [{ id := "a", name := "a.sh", filename := "a_a.sh", type := "sh" }]
    schedules :=
      [{ id := "s", script_id := .str "a", frequency_type := .str "minutes",
         frequency_value := .num 5, start_time := .undefined, end_time := .undefined,
         is_active := true, cron_expression := "*/5 * * * *" },
       { id := "i", script_id := .str "a", frequency_type := .str "hours",
         frequency_value := .num 2, start_time := .undefined, end_time := .undefined,
         is_active := false, cron_expression := "0 */2 * * *" },
       { id := "m", script_id := .str "gone", frequency_type := .str "days",
         frequency_value := .num 1, start_time := .undefined, end_time := .undefined,
         is_active := true, cron_expression := "0 0 */1 * *" }]
    executions := [] }

/-- A store whose only schedule row, Active and with an existing script, carries the
expression that the create handler compiles for ('days', 32). -/
def sampleRejectedStore : Store :=
  { scripts := [{ id := "a", name := "a.sh", filename := "a_a.sh", type := "sh" }]
    schedules :=
      [{ id := "s", script_id := .str "a", frequency_type := .str "days",
         frequency_value := .num 32, start_time := .undefined, end_time := .undefined,
         is_active := true, cron_expression := "0 0 */32 * *" }]
    executions := [] }

/-- An environment of the reload in which every query succeeds and the cron library accepts
every text that is not read here. -/
def sampleLenientLoadEnv : LoadEnv :=
  { queryOk := true, lookupOk := fun _ => true, cronLib := fun _ => true }

/-- A create request for the script of `sampleStore`, every 32 days, with an immediate run. -/
def sampleDaysReq : CreateReq :=
  { scriptId := .str "a", frequencyType := .str "days", frequencyValue := .num 32,
    startTime := .undefined, endTime := .undefined, runImmediately := .bool true }

/-- As `sampleCreateEnv`, the cron library accepting every text that is not read here. -/
def sampleLenientCreateEnv : CreateEnv :=
  { scheduleId := "s", insertOk := true, lookupOk := true, cronLib := fun _ => true,
    fire := { executionId := "e", startTime := "t0", isWindows := false, insertOk := true },
    events := [.close (some 0) "t1" true] }

/-- A create request for the script of `sampleStore` with a frequency value given freely. -/
def sampleReqWith (value : JsVal) : CreateReq :=
  { scriptId := .str "a", frequencyType := .str "minutes", frequencyValue := value,
    startTime := .undefined, endTime := .undefined, runImmediately := .bool false }

/-- The row persisted for `sampleReqWith (.num (-5))` under `sampleCreateEnv`. -/
def sampleNegativeRow : ScheduleRow :=
  { id := "s", script_id := .str "a", frequency_type := .str "minutes",
    frequency_value := .num (-5), start_time := .undefined, end_time := .undefined,
    is_active := true, cron_expression := "*/-5 * * * *" }

/-- A create request for the script of `sampleStore`, every 5 minutes, with the flag
`runImmediately` as given. -/
def sampleCreateReq (runImmediately : Bool) : CreateReq :=
  { scriptId := .str "a", frequencyType := .str "minutes", frequencyValue := .num 5,
    startTime := .undefined, endTime := .undefined, runImmediately := .bool runImmediately }

/-- The script row of `sampleStore`. -/
def sampleScript : ScriptRow :=
  { id := "a", name := "a.sh", filename := "a_a.sh", type := "sh" }

/-- The backend when the create handler of `sampleCreateReq true` awaits its immediate run. -/
def sampleAwaiting : Sys :=
  (createScheduleStart (sampleCreateReq true) sampleCreateEnv (Sys.fresh sampleStore)).sys

/-- The backend after that: the trigger of the new schedule, started before the immediate run,
fires once, then the child of the immediate run closes with exit code 0. -/
def sampleInterleaved : Sys :=
  childStep 0 (.close (some 0) "t1" true) (triggerFire 0 (fireEnvOf "f") sampleAwaiting)

/-- A create request, every 5 minutes, for a script id that `sampleStore` does not hold. -/
def sampleMissingReq : CreateReq :=
  { scriptId := .str "gone", frequencyType := .str "minutes", frequencyValue := .num 5,
    startTime := .undefined, endTime := .undefined, runImmediately := .bool true }

/-- An environment of the delete handler in which the store accepts the UPDATE. -/
def sampleDeleteEnv : DeleteEnv :=
  { updateOk := true }

/-! ## Decimal rendering and reading -/

theorem digitChar_isDigit (k : Nat) (hk : k < 10) : (Nat.digitChar k).isDigit = true := by
  interval_cases k <;> decide

theorem digitChar_value (k : Nat) (hk : k < 10) : (Nat.digitChar k).toNat - 48 = k := by
  interval_cases k <;> decide

theorem digitChar_ne_blank (k : Nat) (hk : k < 10) : Nat.digitChar k ≠ ' ' := by
  interval_cases k <;> decide

/-- The digits produced for `n` form a non-empty block of decimal digits, put in front of the
accumulator, whose value is `n`. -/
theorem toDigitsCore_spec (fuel : Nat) : ∀ (n : Nat) (ds : List Char), n < fuel →
    ∃ pre : List Char, Nat.toDigitsCore 10 fuel n ds = pre ++ ds ∧ pre ≠ [] ∧
      (∀ c ∈ pre, c.isDigit = true ∧ c ≠ ' ') ∧
      ∀ a, decValue a pre = a * 10 ^ pre.length + n := by
  induction fuel with
  | zero => intro n ds h; omega
  | succ f ih =>
    intro n ds h
    have hd : n % 10 < 10 := Nat.mod_lt _ (by decide)
    by_cases h0 : n / 10 = 0
    · refine ⟨[Nat.digitChar (n % 10)], ?_, by simp, ?_, ?_⟩
      · simp [Nat.toDigitsCore, h0]
      · intro c hc
        simp only [List.mem_singleton] at hc
        subst hc
        exact ⟨digitChar_isDigit _ hd, digitChar_ne_blank _ hd⟩
      · intro a
        simp only [decValue, List.foldl_cons, List.foldl_nil, List.length_singleton, pow_one]
        rw [digitChar_value _ hd]
        omega
    · have hlt : n / 10 < f := by omega
      obtain ⟨pre, hpre, hne, hall, hval⟩ := ih (n / 10) (Nat.digitChar (n % 10) :: ds) hlt
      refine ⟨pre ++ [Nat.digitChar (n % 10)], ?_, by simp, ?_, ?_⟩
      · simp [Nat.toDigitsCore, h0, hpre]
      · intro c hc
        rcases List.mem_append.mp hc with hc | hc
        · exact hall c hc
        · simp only [List.mem_singleton] at hc
          subst hc
          exact ⟨digitChar_isDigit _ hd, digitChar_ne_blank _ hd⟩
      · intro a
        have hv := hval a
        simp only [decValue] at hv
        simp only [decValue, List.foldl_append, List.foldl_cons, List.foldl_nil,
          List.length_append, List.length_singleton, hv]
        rw [digitChar_value _ hd, pow_succ]
        have := Nat.div_add_mod n 10
        nlinarith [Nat.div_add_mod n 10]

/-- Decimal text of a natural number: non-empty, digits only, and read back as the number. -/
theorem repr_data_spec (n : Nat) :
    (toString n).data ≠ [] ∧ (∀ c ∈ (toString n).data, c.isDigit = true ∧ c ≠ ' ') ∧
      decValue 0 (toString n).data = n := by
  obtain ⟨pre, hpre, hne, hall, hval⟩ := toDigitsCore_spec (n + 1) n [] (Nat.lt_succ_self n)
  have hdata : (toString n).data = pre := by
    show (Nat.repr n).data = pre
    simp [Nat.repr, Nat.toDigits, hpre, List.asString]
  rw [hdata]
  refine ⟨hne, hall, ?_⟩
  simpa using hval 0

theorem parseDec_toString (n : Nat) : parseDec (toString n).data = some n := by
  obtain ⟨hne, hall, hval⟩ := repr_data_spec n
  unfold parseDec
  rw [if_pos]
  · rw [hval]
  · refine ⟨hne, ?_⟩
    rw [List.all_eq_true]
    intro c hc
    exact (hall c hc).1

/-! ## Splitting and reading the compiled expressions -/

theorem splitFields_block (pre : List Char) (hpre : ∀ c ∈ pre, c ≠ ' ') (rest : List Char) :
    splitFields (pre ++ ' ' :: rest) = pre :: splitFields rest := by
  induction pre with
  | nil => simp [splitFields]
  | cons c cs ih =>
    have hc : c ≠ ' ' := hpre c (List.mem_cons_self _ _)
    have hcs : ∀ d ∈ cs, d ≠ ' ' := fun d hd => hpre d (List.mem_cons_of_mem _ hd)
    simp [splitFields, hc, ih hcs]

theorem parseField_step (n : Nat) :
    parseField ('*' :: '/' :: (toString n).data) = some (.step n) := by
  obtain ⟨hne, -, -⟩ := repr_data_spec n
  cases hd : (toString n).data with
  | nil => exact absurd hd hne
  | cons c cs =>
    have h := parseDec_toString n
    rw [hd] at h
    simp [parseField, h]

theorem parseCron_minutes (n : Nat) :
    parseCron ("*/" ++ toString n ++ " * * * *") =
      some ⟨.step n, .star, .star, .star, .star⟩ := by
  obtain ⟨-, hall, -⟩ := repr_data_spec n
  have hdata : ("*/" ++ toString n ++ " * * * *").data =
      ('*' :: '/' :: (toString n).data) ++ ' ' :: ['*', ' ', '*', ' ', '*', ' ', '*'] := by
    simp [String.data_append]
  have hblk : ∀ c ∈ '*' :: '/' :: (toString n).data, c ≠ ' ' := by
    intro c hc
    simp only [List.mem_cons] at hc
    rcases hc with rfl | rfl | hc
    · decide
    · decide
    · exact (hall c hc).2
  unfold parseCron
  rw [hdata, splitFields_block _ hblk]
  have hrest : splitFields ['*', ' ', '*', ' ', '*', ' ', '*'] = [['*'], ['*'], ['*'], ['*']] := by
    decide
  rw [hrest]
  simp [parseField, parseDec_toString]

theorem parseCron_hours (n : Nat) :
    parseCron ("0 */" ++ toString n ++ " * * *") =
      some ⟨.lit 0, .step n, .star, .star, .star⟩ := by
  obtain ⟨-, hall, -⟩ := repr_data_spec n
  have hdata : ("0 */" ++ toString n ++ " * * *").data =
      ['0'] ++ ' ' :: (('*' :: '/' :: (toString n).data) ++ ' ' :: ['*', ' ', '*', ' ', '*']) := by
    simp [String.data_append]
  have hblk : ∀ c ∈ '*' :: '/' :: (toString n).data, c ≠ ' ' := by
    intro c hc
    simp only [List.mem_cons] at hc
    rcases hc with rfl | rfl | hc
    · decide
    · decide
    · exact (hall c hc).2
  unfold parseCron
  rw [hdata, splitFields_block _ (by decide), splitFields_block _ hblk]
  have hrest : splitFields ['*', ' ', '*', ' ', '*'] = [['*'], ['*'], ['*']] := by decide
  rw [hrest]
  have hdec : parseDec ['0'] = some 0 := by decide
  simp [parseField, parseDec_toString, hdec]

theorem parseCron_days (n : Nat) :
    parseCron ("0 0 */" ++ toString n ++ " * *") =
      some ⟨.lit 0, .lit 0, .step n, .star, .star⟩ := by
  obtain ⟨-, hall, -⟩ := repr_data_spec n
  have hdata : ("0 0 */" ++ toString n ++ " * *").data =
      ['0'] ++ ' ' :: (['0'] ++ ' ' :: (('*' :: '/' :: (toString n).data) ++ ' ' :: ['*', ' ', '*'])) := by
    simp [String.data_append]
  have hblk : ∀ c ∈ '*' :: '/' :: (toString n).data, c ≠ ' ' := by
    intro c hc
    simp only [List.mem_cons] at hc
    rcases hc with rfl | rfl | hc
    · decide
    · decide
    · exact (hall c hc).2
  unfold parseCron
  rw [hdata, splitFields_block _ (by decide), splitFields_block _ (by decide),
    splitFields_block _ hblk]
  have hrest : splitFields ['*', ' ', '*'] = [['*'], ['*']] := by decide
  rw [hrest]
  have hdec : parseDec ['0'] = some 0 := by decide
  simp [parseField, parseDec_toString, hdec]

/-! ## Numbers below 2^53, accepted steps, firing -/

theorem numberText_small (m : Nat) (h : m < 2 ^ 53) : numberText m = toString m := by
  unfold numberText
  rw [if_pos h]

theorem toStr_num_small (m : Nat) (h : m < 2 ^ 53) :
    (JsVal.num (m : Int)).toStr = toString m := by
  show numberText m = toString m
  exact numberText_small m h

theorem step_inRange_zero (n hi : Nat) (hn : n ≠ 0) : (CronField.step n).inRange 0 hi = true := by
  simp only [CronField.inRange, Bool.and_eq_true, bne_iff_ne, ne_eq, hn, not_false_eq_true,
    true_and, List.any_eq_true]
  refine ⟨0, ?_, by simp⟩
  simp [List.mem_filter]

theorem step_inRange_one (n hi : Nat) :
    (CronField.step n).inRange 1 hi = true ↔ 1 ≤ n ∧ n ≤ hi := by
  simp only [CronField.inRange, Bool.and_eq_true, bne_iff_ne, ne_eq, List.any_eq_true,
    List.mem_filter, List.mem_range, decide_eq_true_eq, beq_iff_eq]
  constructor
  · rintro ⟨hn, x, ⟨hx, h1⟩, hmod⟩
    have hdvd : n ∣ x := Nat.dvd_of_mod_eq_zero hmod
    have hle : n ≤ x := Nat.le_of_dvd (by omega) hdvd
    omega
  · rintro ⟨h1, h2⟩
    exact ⟨by omega, n, ⟨by omega, h1⟩, Nat.mod_self n⟩

theorem star_inRange (lo hi : Nat) : CronField.star.inRange lo hi = true := rfl

theorem lit_zero_inRange (hi : Nat) : (CronField.lit 0).inRange 0 hi = true := by
  simp [CronField.inRange]

theorem readCron_minutes (n : Nat) :
    readCron ("*/" ++ toString n ++ " * * * *") = some ⟨.step n, .star, .star, .star, .star⟩ := by
  simp [readCron, parseCron_minutes]

theorem readCron_hours (n : Nat) :
    readCron ("0 */" ++ toString n ++ " * * *") =
      some ⟨.lit 0, .step n, .star, .star, .star⟩ := by
  simp [readCron, parseCron_hours]

theorem readCron_days (n : Nat) :
    readCron ("0 0 */" ++ toString n ++ " * *") =
      some ⟨.lit 0, .lit 0, .step n, .star, .star⟩ := by
  simp [readCron, parseCron_days]

theorem accepts_minutes (lib : String → Bool) (n : Nat) (hn : 1 ≤ n) :
    cronAccepts lib ("*/" ++ toString n ++ " * * * *") = true := by
  have hn0 : n ≠ 0 := by omega
  simp only [cronAccepts, readCron_minutes, CronExpr.valid, step_inRange_zero n 59 hn0,
    star_inRange, Bool.and_self]

theorem accepts_hours (lib : String → Bool) (n : Nat) (hn : 1 ≤ n) :
    cronAccepts lib ("0 */" ++ toString n ++ " * * *") = true := by
  have hn0 : n ≠ 0 := by omega
  simp only [cronAccepts, readCron_hours, CronExpr.valid, step_inRange_zero n 23 hn0,
    star_inRange, lit_zero_inRange, Bool.and_self]

theorem accepts_days (lib : String → Bool) (n : Nat) :
    cronAccepts lib ("0 0 */" ++ toString n ++ " * *") = true ↔ 1 ≤ n ∧ n ≤ 31 := by
  rw [← step_inRange_one n 31]
  simp only [cronAccepts, readCron_days, CronExpr.valid, star_inRange, lit_zero_inRange,
    Bool.and_true, Bool.true_and]

theorem fires_minutes (n : Nat) (hn : 1 ≤ n) (t : WallClock) :
    triggerFiresAt ("*/" ++ toString n ++ " * * * *") t = some (decide (t.minute % n = 0)) := by
  have hn0 : n ≠ 0 := by omega
  simp only [triggerFiresAt, readCron_minutes, CronExpr.valid, step_inRange_zero n 59 hn0,
    star_inRange, Bool.and_self, Bool.true_and]
  rw [Option.some.injEq, Bool.eq_iff_iff]
  simp [CronExpr.firesAt, CronField.admits, hn0]

theorem fires_hours (n : Nat) (hn : 1 ≤ n) (t : WallClock) :
    triggerFiresAt ("0 */" ++ toString n ++ " * * *") t =
      some (decide (t.minute = 0 ∧ t.hour % n = 0)) := by
  have hn0 : n ≠ 0 := by omega
  simp only [triggerFiresAt, readCron_hours, CronExpr.valid, step_inRange_zero n 23 hn0,
    star_inRange, lit_zero_inRange, Bool.and_self, Bool.true_and]
  rw [Option.some.injEq, Bool.eq_iff_iff]
  simp [CronExpr.firesAt, CronField.admits, hn0]

theorem fires_days (n : Nat) (hn : 1 ≤ n) (h31 : n ≤ 31) (t : WallClock) :
    triggerFiresAt ("0 0 */" ++ toString n ++ " * *") t =
      some (decide (t.minute = 0 ∧ t.hour = 0 ∧ t.dayOfMonth % n = 0)) := by
  have hn0 : n ≠ 0 := by omega
  have hr : (CronField.step n).inRange 1 31 = true := (step_inRange_one n 31).mpr ⟨hn, h31⟩
  simp only [triggerFiresAt, readCron_days, CronExpr.valid, hr, star_inRange,
    lit_zero_inRange, Bool.and_self, Bool.true_and]
  rw [Option.some.injEq, Bool.eq_iff_iff]
  simp [CronExpr.firesAt, CronField.admits, hn0, and_assoc]

/-! ## C1: minute and hour triggers -/

/-- C1 fails at v = 10^21: there the template literal renders the number in exponent form, so
frequencyToCron('minutes', v) is the text `*/1e+21 * * * *` and frequencyToCron('hours', v) is
`0 */1e+21 * * *`, neither of which is a step field over the digits of v. -/
theorem C1_exponent_form_at_1e21 :
    frequencyToCron (.str "minutes") (.num (10 ^ 21)) = .ok "*/1e+21 * * * *" ∧
    frequencyToCron (.str "hours") (.num (10 ^ 21)) = .ok "0 */1e+21 * * *" ∧
    "*/1e+21 * * * *" ≠ "*/1000000000000000000000 * * * *" ∧
    parseCron "*/1e+21 * * * *" = none ∧ parseCron "0 */1e+21 * * *" = none :=
  ⟨rfl, rfl, by decide, by decide, by decide⟩

/-- C1 as amended: for every integer v with 1 <= v < 2^53, frequencyToCron('minutes', v) is the
text `*/v * * * *` and frequencyToCron('hours', v) is `0 */v * * *`, v in decimal digits;
`cron.schedule` accepts both, and read as cron step fields the first fires exactly at the
instants whose minute m has m mod v = 0, in every hour of every day, and the second exactly at
minute 0 of the hours h with h mod v = 0. -/
theorem C1_minutes_hours_step_triggers (v : Int) (hv : 1 ≤ v) (hb : v < 2 ^ 53) :
    frequencyToCron (.str "minutes") (.num v) = .ok ("*/" ++ toString v ++ " * * * *") ∧
    frequencyToCron (.str "hours") (.num v) = .ok ("0 */" ++ toString v ++ " * * *") ∧
    (∀ lib : String → Bool, cronAccepts lib ("*/" ++ toString v ++ " * * * *") = true) ∧
    (∀ lib : String → Bool, cronAccepts lib ("0 */" ++ toString v ++ " * * *") = true) ∧
    (∀ t : WallClock,
      triggerFiresAt ("*/" ++ toString v ++ " * * * *") t =
        some (decide ((t.minute : Int) % v = 0))) ∧
    (∀ t : WallClock,
      triggerFiresAt ("0 */" ++ toString v ++ " * * *") t =
        some (decide (t.minute = 0 ∧ (t.hour : Int) % v = 0))) := by
  obtain ⟨n, rfl⟩ := Int.eq_ofNat_of_zero_le (le_trans (by decide) hv)
  have hn : 1 ≤ n := by exact_mod_cast hv
  have hn53 : n < 2 ^ 53 := by exact_mod_cast hb
  have hs : toString ((n : Nat) : Int) = toString n := rfl
  have htxt := toStr_num_small n hn53
  refine ⟨?_, ?_, ?_, ?_, ?_, ?_⟩
  · simp only [frequencyToCron, htxt, hs]
  · simp only [frequencyToCron, htxt, hs]
  · intro lib
    rw [hs]
    exact accepts_minutes lib n hn
  · intro lib
    rw [hs]
    exact accepts_hours lib n hn
  · intro t
    rw [hs, fires_minutes n hn t]
    congr 1
    rw [decide_eq_decide]
    omega
  · intro t
    rw [hs, fires_hours n hn t]
    congr 1
    rw [decide_eq_decide]
    omega

/-- C1 as amended, at the two inputs named by the specification: every 5 minutes fires at the
minutes 0, 5, ..., 55 of any hour, every 2 hours fires at minute 0 of the hours 0, 2, ..., 22. -/
theorem C1_minutes_hours_step_triggers_witness :
    (1 : Int) ≤ 5 ∧ (5 : Int) < 2 ^ 53 ∧
    frequencyToCron (.str "minutes") (.num 5) = .ok "*/5 * * * *" ∧
    frequencyToCron (.str "hours") (.num 2) = .ok "0 */2 * * *" ∧
    (∀ t : WallClock,
      triggerFiresAt "*/5 * * * *" t = some (decide ((t.minute : Int) % 5 = 0))) ∧
    (List.range 60).filter (fun m => triggerFiresAt "*/5 * * * *" ⟨m, 13, 4, 11, 3⟩ = some true) =
      [0, 5, 10, 15, 20, 25, 30, 35, 40, 45, 50, 55] ∧
    (List.range 24).filter (fun h => triggerFiresAt "0 */2 * * *" ⟨0, h, 4, 11, 3⟩ = some true) =
      [0, 2, 4, 6, 8, 10, 12, 14, 16, 18, 20, 22] :=
  ⟨by decide, by decide, rfl, rfl,
    (C1_minutes_hours_step_triggers 5 (by decide) (by decide)).2.2.2.2.1,
    by decide, by decide⟩

/-! ## C2: day triggers -/

/-- C2 fails for v = 2: the compiled trigger is `0 0 */2 * *`; epoch-day 0 is the first of
January 1970 and 0 is divisible by 2, yet the trigger does not fire at its midnight, while it
fires at midnight of epoch-day 1, the second of January, although 1 is not divisible by 2. -/
theorem C2_days_not_epoch_aligned :
    frequencyToCron (.str "days") (.num 2) = .ok "0 0 */2 * *" ∧
    wallClockAt 0 0 0 = ⟨0, 0, 1, 1, 4⟩ ∧ 0 % 2 = 0 ∧
    triggerFiresAt "0 0 */2 * *" (wallClockAt 0 0 0) = some false ∧
    wallClockAt 1 0 0 = ⟨0, 0, 2, 1, 5⟩ ∧ 1 % 2 ≠ 0 ∧
    triggerFiresAt "0 0 */2 * *" (wallClockAt 1 0 0) = some true :=
  ⟨rfl, by decide, by decide, by decide, by decide, by decide, by decide⟩

/-- C2 as amended: for every integer v with 1 <= v < 2^53, frequencyToCron('days', v) is the
text `0 0 */v * *`, v in decimal digits. `cron.schedule` accepts it exactly when v <= 31, and
then the trigger fires exactly at 00:00 of the days whose day of the month d has d mod v = 0;
for v = 1 that is once per day, at midnight of every day counted from epoch-day 0. -/
theorem C2_days_step_on_day_of_month (v : Int) (hv : 1 ≤ v) (hb : v < 2 ^ 53) :
    frequencyToCron (.str "days") (.num v) = .ok ("0 0 */" ++ toString v ++ " * *") ∧
    (∀ lib : String → Bool,
      cronAccepts lib ("0 0 */" ++ toString v ++ " * *") = true ↔ v ≤ 31) ∧
    (v ≤ 31 → ∀ t : WallClock,
      triggerFiresAt ("0 0 */" ++ toString v ++ " * *") t =
        some (decide (t.minute = 0 ∧ t.hour = 0 ∧ (t.dayOfMonth : Int) % v = 0))) ∧
    (v = 1 → ∀ days hour minute : Nat,
      triggerFiresAt ("0 0 */" ++ toString v ++ " * *") (wallClockAt days hour minute) =
        some (decide (hour = 0 ∧ minute = 0))) := by
  obtain ⟨n, rfl⟩ := Int.eq_ofNat_of_zero_le (le_trans (by decide) hv)
  have hn : 1 ≤ n := by exact_mod_cast hv
  have hn53 : n < 2 ^ 53 := by exact_mod_cast hb
  have hs : toString ((n : Nat) : Int) = toString n := rfl
  have htxt := toStr_num_small n hn53
  refine ⟨?_, ?_, ?_, ?_⟩
  · simp only [frequencyToCron, htxt, hs]
  · intro lib
    rw [hs, accepts_days lib n]
    omega
  · intro h31 t
    have hn31 : n ≤ 31 := by exact_mod_cast h31
    rw [hs, fires_days n hn hn31 t]
    congr 1
    rw [decide_eq_decide]
    omega
  · intro h1 days hour minute
    have hn1 : n = 1 := by exact_mod_cast h1
    subst hn1
    rw [hs, fires_days 1 (by decide) (by decide)]
    congr 1
    rw [decide_eq_decide]
    simp [wallClockAt, Nat.mod_one, and_comm]

/-- C2 as amended, at v = 2, which is accepted, and at v = 32, which is rejected. -/
theorem C2_days_step_on_day_of_month_witness :
    (1 : Int) ≤ 2 ∧ (2 : Int) < 2 ^ 53 ∧ (2 : Int) ≤ 31 ∧
    frequencyToCron (.str "days") (.num 2) = .ok "0 0 */2 * *" ∧
    (∀ t : WallClock,
      triggerFiresAt "0 0 */2 * *" t =
        some (decide (t.minute = 0 ∧ t.hour = 0 ∧ (t.dayOfMonth : Int) % 2 = 0))) ∧
    frequencyToCron (.str "days") (.num 32) = .ok "0 0 */32 * *" ∧
    cronAccepts (fun _ => true) "0 0 */32 * *" = false :=
  ⟨by decide, by decide, by decide, rfl,
    (C2_days_step_on_day_of_month 2 (by decide) (by decide)).2.2.1 (by decide),
    rfl, by decide⟩

/-! ## C3: invalid frequency types -/

theorem frequencyToCron_invalid (type value : JsVal) (h1 : type ≠ .str "minutes")
    (h2 : type ≠ .str "hours") (h3 : type ≠ .str "days") :
    frequencyToCron type value = .error "Invalid frequency type" := by
  unfold frequencyToCron
  split
  · exact absurd rfl h1
  · exact absurd rfl h2
  · exact absurd rfl h3
  · rfl

theorem createScheduleStart_invalid (req : CreateReq) (env : CreateEnv) (s : Sys)
    (h1 : req.frequencyType ≠ .str "minutes") (h2 : req.frequencyType ≠ .str "hours")
    (h3 : req.frequencyType ≠ .str "days") :
    createScheduleStart req env s =
      if (!req.scriptId.truthy || !req.frequencyType.truthy || !req.frequencyValue.truthy) = true
      then .done (.json 400 [("error", "Missing required fields")]) s
      else .done (.threw "Invalid frequency type") s := by
  unfold createScheduleStart
  split
  · rfl
  · simp [frequencyToCron_invalid _ _ h1 h2 h3]

/-- C3: for every frequency type other than 'minutes', 'hours' and 'days' and every frequency
value, frequencyToCron fails with the invalid-frequency error, and a create-schedule request
with such a type whose scriptId, frequencyType and frequencyValue pass the presence guard ends
in that error, thrown out of the handler, with the whole state (the three tables, activeJobs,
the cron tasks and the child processes) exactly as before; for any request with such a type,
present fields or not, the state is unchanged. -/
theorem C3_invalid_frequency_rejected (type : JsVal) (h1 : type ≠ .str "minutes")
    (h2 : type ≠ .str "hours") (h3 : type ≠ .str "days") :
    (∀ value : JsVal, frequencyToCron type value = .error "Invalid frequency type") ∧
    (∀ (req : CreateReq) (env : CreateEnv) (s : Sys), req.frequencyType = type →
      req.scriptId.truthy = true → req.frequencyType.truthy = true →
      req.frequencyValue.truthy = true →
      createSchedule req env s = (.threw "Invalid frequency type", s)) ∧
    (∀ (req : CreateReq) (env : CreateEnv) (s : Sys), req.frequencyType = type →
      (createSchedule req env s).2 = s) := by
  refine ⟨fun value => frequencyToCron_invalid type value h1 h2 h3, ?_, ?_⟩
  · intro req env s ht hs hf hv
    subst ht
    simp [createSchedule, createScheduleStart, hs, hf, hv,
      frequencyToCron_invalid _ _ h1 h2 h3]
  · intro req env s ht
    subst ht
    unfold createSchedule
    rw [createScheduleStart_invalid req env s h1 h2 h3]
    by_cases hg : (!req.scriptId.truthy || !req.frequencyType.truthy ||
        !req.frequencyValue.truthy) = true
    · rw [if_pos hg]
    · rw [if_neg hg]

/-- C3 at the input named by the specification, ('weeks', 1). -/
theorem C3_invalid_frequency_rejected_witness :
    JsVal.str "weeks" ≠ .str "minutes" ∧ JsVal.str "weeks" ≠ .str "hours" ∧
    JsVal.str "weeks" ≠ .str "days" ∧
    frequencyToCron (.str "weeks") (.num 1) = .error "Invalid frequency type" ∧
    sampleWeeksReq.scriptId.truthy = true ∧ sampleWeeksReq.frequencyType.truthy = true ∧
    sampleWeeksReq.frequencyValue.truthy = true ∧
    createSchedule sampleWeeksReq sampleCreateEnv (Sys.fresh sampleStore) =
      (.threw "Invalid frequency type", Sys.fresh sampleStore) :=
  ⟨by decide, by decide, by decide,
    (C3_invalid_frequency_rejected (.str "weeks") (by decide) (by decide) (by decide)).1 (.num 1),
    by decide, by decide, by decide,
    (C3_invalid_frequency_rejected (.str "weeks") (by decide) (by decide) (by decide)).2.1
      sampleWeeksReq sampleCreateEnv (Sys.fresh sampleStore) rfl (by decide) (by decide)
      (by decide)⟩

/-! ## The child of one `executeScript` call -/

theorem get?_last {α : Type} (pre : List α) (c : α) : (pre ++ [c]).get? pre.length = some c := by
  induction pre with
  | nil => rfl
  | cons x xs ih => simp [ih]

theorem updateAt_last {α : Type} (f : α → α) (pre : List α) (c : α) :
    updateAt f pre.length (pre ++ [c]) = pre ++ [f c] := by
  induction pre with
  | nil => rfl
  | cons x xs ih => simp [updateAt, ih]

theorem childStep_last (ev : ChildEvent) (st : Store) (a : String → Option Nat)
    (t : List CronTask) (pre : List Child) (c : Child) :
    childStep pre.length ev ⟨st, a, t, pre ++ [c]⟩ =
      ⟨(handleEvent ev c st).2, a, t, pre ++ [(handleEvent ev c st).1]⟩ := by
  simp [childStep, get?_last, updateAt_last]

theorem resolvedOf_last (st : Store) (a : String → Option Nat) (t : List CronTask)
    (pre : List Child) (c : Child) :
    resolvedOf pre.length ⟨st, a, t, pre ++ [c]⟩ = c.resolved := by
  simp [resolvedOf, get?_last]

/-- Chunks of output only fill the two buffers: awaiting goes on with what follows them. -/
theorem awaitChild_data (a : String → Option Nat) (t : List CronTask) (pre : List Child)
    (rest : List ChildEvent) :
    ∀ (ds : List ChildEvent), (∀ e ∈ ds, e.isData = true) →
    ∀ (st : Store) (c : Child), c.resolved = none →
      awaitChild pre.length (ds ++ rest) ⟨st, a, t, pre ++ [c]⟩ =
        awaitChild pre.length rest
          ⟨st, a, t, pre ++ [{ c with stdout := c.stdout ++ stdoutOf ds,
                                      stderr := c.stderr ++ stderrOf ds }]⟩ := by
  intro ds
  induction ds with
  | nil =>
    intro _ st c _
    simp [stdoutOf, stderrOf]
  | cons e es ih =>
    intro hall st c hc
    have hes : ∀ x ∈ es, x.isData = true := fun x hx => hall x (List.mem_cons_of_mem _ hx)
    have he : e.isData = true := hall e (List.mem_cons_self _ _)
    cases e with
    | stdoutData d =>
      simp only [List.cons_append, awaitChild, childStep_last, resolvedOf_last, handleEvent, hc,
        Option.isSome_none, Bool.false_eq_true, if_false]
      change awaitChild pre.length (es ++ rest) _ = _
      rw [ih hes st _ rfl]
      simp [stdoutOf, stderrOf, String.append_assoc]
    | stderrData d =>
      simp only [List.cons_append, awaitChild, childStep_last, resolvedOf_last, handleEvent, hc,
        Option.isSome_none, Bool.false_eq_true, if_false]
      change awaitChild pre.length (es ++ rest) _ = _
      rw [ih hes st _ rfl]
      simp [stdoutOf, stderrOf, String.append_assoc]
    | close code ft ok => simp [ChildEvent.isData] at he
    | error m ft ok => simp [ChildEvent.isData] at he

theorem insertExecution_fresh (st : Store) (id scheduleId status startedAt : String)
    (hfresh : ∀ r ∈ st.executions, r.id ≠ id) :
    st.insertExecution true id scheduleId status startedAt =
      { st with executions := st.executions ++
          [{ id := id, schedule_id := scheduleId, status := status, started_at := startedAt,
             finished_at := none, stdout := none, stderr := none, exit_code := none }] } := by
  have hany : st.executions.any (fun r => r.id == id) = false := by
    rw [List.any_eq_false]
    intro r hr
    simpa using hfresh r hr
  simp [Store.insertExecution, hany]

theorem map_update_fresh (rows : List ExecutionRow) (id : String) (f : ExecutionRow → ExecutionRow)
    (hfresh : ∀ r ∈ rows, r.id ≠ id) :
    rows.map (fun r => if r.id = id then f r else r) = rows := by
  induction rows with
  | nil => rfl
  | cons r rs ih =>
    have h1 : r.id ≠ id := hfresh r (List.mem_cons_self _ _)
    have h2 : ∀ x ∈ rs, x.id ≠ id := fun x hx => hfresh x (List.mem_cons_of_mem _ hx)
    simp [h1, ih h2]

theorem insertAccepted_of (env : FireEnv) (s : Sys) (hins : env.insertOk = true)
    (hfresh : ∀ r ∈ s.store.executions, r.id ≠ env.executionId) :
    insertAccepted env s = true := by
  have hany : s.store.executions.any (fun r => r.id == env.executionId) = false := by
    rw [List.any_eq_false]
    intro r hr
    simpa using hfresh r hr
  simp [insertAccepted, hins, hany]

theorem insertAccepted_fresh (env : FireEnv) (s : Sys) (h : insertAccepted env s = true) :
    env.insertOk = true ∧ ∀ r ∈ s.store.executions, r.id ≠ env.executionId := by
  simp only [insertAccepted, Bool.and_eq_true, Bool.not_eq_true', List.any_eq_false,
    beq_iff_eq] at h
  exact ⟨h.1, fun r hr => h.2 r hr⟩

/-- The child begun by `executeScript`, the INSERT accepted, awaited over some output and a
close with `code`, the store accepting the UPDATE. -/
theorem await_close (s : Sys) (env : FireEnv) (scheduleId scriptPath scriptType : String)
    (ds : List ChildEvent) (code : Option Int) (finishTime : String)
    (hins : env.insertOk = true)
    (hfresh : ∀ r ∈ s.store.executions, r.id ≠ env.executionId)
    (hds : ∀ e ∈ ds, e.isData = true) :
    resolvedOf s.children.length
        (awaitChild s.children.length (ds ++ [.close code finishTime true])
          (executeScriptBegin env scheduleId scriptPath scriptType s))
      = some (.exited env.executionId (exitStatus code) code (stdoutOf ds) (stderrOf ds)) ∧
    (awaitChild s.children.length (ds ++ [.close code finishTime true])
        (executeScriptBegin env scheduleId scriptPath scriptType s)).store.executions
      = s.store.executions ++
          [{ id := env.executionId, schedule_id := scheduleId, status := exitStatus code,
             started_at := env.startTime, finished_at := some finishTime,
             stdout := some (stdoutOf ds), stderr := some (stderrOf ds), exit_code := code }] := by
  unfold executeScriptBegin
  rw [awaitChild_data _ _ _ _ ds hds _ _ rfl]
  simp only [awaitChild, childStep_last, resolvedOf_last, handleEvent, resolveWith,
    Option.isSome_some, if_true]
  refine ⟨by simp, ?_⟩
  rw [hins, insertExecution_fresh _ _ _ _ _ hfresh]
  simp [Store.updateOnClose, map_update_fresh _ _ _ hfresh]

/-- The child begun by `executeScript`, the INSERT accepted, awaited over some output and an
`error` event, the store accepting the UPDATE. -/
theorem await_error (s : Sys) (env : FireEnv) (scheduleId scriptPath scriptType : String)
    (ds : List ChildEvent) (message finishTime : String)
    (hins : env.insertOk = true)
    (hfresh : ∀ r ∈ s.store.executions, r.id ≠ env.executionId)
    (hds : ∀ e ∈ ds, e.isData = true) :
    resolvedOf s.children.length
        (awaitChild s.children.length (ds ++ [.error message finishTime true])
          (executeScriptBegin env scheduleId scriptPath scriptType s))
      = some (.spawnError env.executionId "failed" message) ∧
    (awaitChild s.children.length (ds ++ [.error message finishTime true])
        (executeScriptBegin env scheduleId scriptPath scriptType s)).store.executions
      = s.store.executions ++
          [{ id := env.executionId, schedule_id := scheduleId, status := "failed",
             started_at := env.startTime, finished_at := some finishTime,
             stdout := none, stderr := some message, exit_code := none }] := by
  unfold executeScriptBegin
  rw [awaitChild_data _ _ _ _ ds hds _ _ rfl]
  simp only [awaitChild, childStep_last, resolvedOf_last, handleEvent, resolveWith,
    Option.isSome_some, if_true]
  refine ⟨by simp, ?_⟩
  rw [hins, insertExecution_fresh _ _ _ _ _ hfresh]
  simp [Store.updateOnError, map_update_fresh _ _ _ hfresh]

theorem executeScript_accepted (env : FireEnv) (events : List ChildEvent)
    (scheduleId scriptPath scriptType : String) (s : Sys) (h : insertAccepted env s = true) :
    executeScript env events scheduleId scriptPath scriptType s =
      (awaitChild s.children.length events
          (executeScriptBegin env scheduleId scriptPath scriptType s),
        resolvedOf s.children.length
          (awaitChild s.children.length events
            (executeScriptBegin env scheduleId scriptPath scriptType s))) := by
  unfold executeScript
  rw [if_pos h]

/-! ## C4, C5, C6: outcome of one run -/

/-- C4: for every exit code c delivered by the close event (a number, or null for a child
ended by a signal), executeScript resolves with status 'success' if and only if c is exactly 0
and with 'failed' otherwise, and both the resolved value and the Execution record, inserted as
'running' and updated by the handler, carry c together with the whole standard output and
standard error accumulated from the data events. -/
theorem C4_close_resolves_by_exit_code (s : Sys) (env : FireEnv)
    (scheduleId scriptPath scriptType : String) (ds : List ChildEvent) (code : Option Int)
    (finishTime : String) (hins : env.insertOk = true)
    (hfresh : ∀ r ∈ s.store.executions, r.id ≠ env.executionId)
    (hds : ∀ e ∈ ds, e.isData = true) :
    (executeScript env (ds ++ [.close code finishTime true]) scheduleId scriptPath scriptType s).2
      = some (.exited env.executionId (exitStatus code) code (stdoutOf ds) (stderrOf ds)) ∧
    (executeScript env (ds ++ [.close code finishTime true]) scheduleId scriptPath
        scriptType s).1.store.executions
      = s.store.executions ++
          [{ id := env.executionId, schedule_id := scheduleId, status := exitStatus code,
             started_at := env.startTime, finished_at := some finishTime,
             stdout := some (stdoutOf ds), stderr := some (stderrOf ds), exit_code := code }] ∧
    (exitStatus code = "success" ↔ code = some 0) ∧
    (code ≠ some 0 → exitStatus code = "failed") := by
  obtain ⟨h1, h2⟩ :=
    await_close s env scheduleId scriptPath scriptType ds code finishTime hins hfresh hds
  rw [executeScript_accepted _ _ _ _ _ _ (insertAccepted_of env s hins hfresh)]
  refine ⟨h1, h2, ?_, ?_⟩
  · unfold exitStatus
    by_cases hc : code = some 0
    · simp [hc]
    · simp [hc]
  · intro hc
    simp [exitStatus, hc]

/-- C4 at exit code 7 and at exit code 0. -/
theorem C4_close_resolves_by_exit_code_witness :
    sampleFireEnv.insertOk = true ∧
    (∀ r ∈ (Sys.fresh sampleStore).store.executions, r.id ≠ sampleFireEnv.executionId) ∧
    (∀ e ∈ sampleOutput, e.isData = true) ∧
    (executeScript sampleFireEnv (sampleOutput ++ [.close (some 7) "t1" true]) "s" "p" "sh"
        (Sys.fresh sampleStore)).2 = some (.exited "e" "failed" (some 7) "ac" "b") ∧
    (executeScript sampleFireEnv (sampleOutput ++ [.close (some 7) "t1" true]) "s" "p" "sh"
        (Sys.fresh sampleStore)).1.store.executions =
      [{ id := "e", schedule_id := "s", status := "failed", started_at := "t0",
         finished_at := some "t1", stdout := some "ac", stderr := some "b",
         exit_code := some 7 }] ∧
    (executeScript sampleFireEnv [.close (some 0) "t1" true] "s" "p" "sh"
        (Sys.fresh sampleStore)).2 = some (.exited "e" "success" (some 0) "" "") :=
  ⟨rfl, by decide, by decide,
    (C4_close_resolves_by_exit_code (Sys.fresh sampleStore) sampleFireEnv "s" "p" "sh"
      sampleOutput (some 7) "t1" rfl (by decide) (by decide)).1,
    (C4_close_resolves_by_exit_code (Sys.fresh sampleStore) sampleFireEnv "s" "p" "sh"
      sampleOutput (some 7) "t1" rfl (by decide) (by decide)).2.1,
    by decide⟩

/-- C5, the code at a failed spawn: the runtime delivers `error` and then `close` with the
negative error number as code (here -2). The error handler resolves the promise with status
`failed`, no exit code and the message, and writes the message to `stderr`; the close handler,
which does not look whether the promise is resolved, then overwrites the record: `stderr`
becomes the empty text and `exit_code` becomes -2, as for a process that exited with a nonzero
code. -/
theorem C5_close_after_error_overwrites_record :
    resolvedOf 0
      (deliverAll 0 [.error "spawn bash ENOENT" "t1" true, .close (some (-2)) "t2" true]
        (executeScriptBegin sampleFireEnv "s" "uploads/scripts/a_a.sh" "sh"
          (Sys.fresh sampleStore)))
      = some (.spawnError "e" "failed" "spawn bash ENOENT") ∧
    (deliverAll 0 [.error "spawn bash ENOENT" "t1" true]
        (executeScriptBegin sampleFireEnv "s" "uploads/scripts/a_a.sh" "sh"
          (Sys.fresh sampleStore))).store.executions =
      [{ id := "e", schedule_id := "s", status := "failed", started_at := "t0",
         finished_at := some "t1", stdout := none, stderr := some "spawn bash ENOENT",
         exit_code := none }] ∧
    (deliverAll 0 [.error "spawn bash ENOENT" "t1" true, .close (some (-2)) "t2" true]
        (executeScriptBegin sampleFireEnv "s" "uploads/scripts/a_a.sh" "sh"
          (Sys.fresh sampleStore))).store.executions =
      [{ id := "e", schedule_id := "s", status := "failed", started_at := "t0",
         finished_at := some "t2", stdout := some "", stderr := some "",
         exit_code := some (-2) }] :=
  ⟨by decide, by decide, by decide⟩

/-- C6 fails: with a store that rejects the INSERT of the running record, `executeScript`
still calls `spawn` (bash on the script path) and no Execution record exists for that run. -/
theorem C6_spawned_though_insert_rejected :
    sampleRejectEnv.insertOk = false ∧
    (executeScriptBegin sampleRejectEnv "s" "uploads/scripts/a_a.sh" "sh"
        (Sys.fresh sampleStore)).children =
      [{ executionId := "e", command := "bash", args := ["uploads/scripts/a_a.sh"],
         stdout := "", stderr := "", resolved := none }] ∧
    (executeScriptBegin sampleRejectEnv "s" "uploads/scripts/a_a.sh" "sh"
        (Sys.fresh sampleStore)).store.executions = [] :=
  ⟨rfl, by decide, by decide⟩

/-- C6 as amended: executeScript issues the INSERT of the running record without looking at
its outcome and then calls spawn, exactly once, in every fire; when the store rejects the
INSERT the store is left as it was and the process has been spawned all the same, with no
Execution record of its own. -/
theorem C6_spawn_regardless_of_insert (env : FireEnv)
    (scheduleId scriptPath scriptType : String) (s : Sys) :
    (executeScriptBegin env scheduleId scriptPath scriptType s).children =
      s.children ++
        [{ executionId := env.executionId,
           command := if (scriptType == "bat" || env.isWindows) = true then "cmd" else "bash",
           args := if (scriptType == "bat" || env.isWindows) = true then ["/c", scriptPath]
             else [scriptPath],
           stdout := "", stderr := "", resolved := none }] ∧
    (insertAccepted env s = false →
      (executeScriptBegin env scheduleId scriptPath scriptType s).store = s.store) := by
  refine ⟨rfl, ?_⟩
  intro h
  have h2 : (env.insertOk && !(s.store.executions.any (fun r => r.id == env.executionId)))
      = false := h
  simp [executeScriptBegin, Store.insertExecution, h2]

/-- C6 as amended, at a store that rejects the INSERT: the child is spawned and the store is
as it was. -/
theorem C6_spawn_regardless_of_insert_witness :
    insertAccepted sampleRejectEnv (Sys.fresh sampleStore) = false ∧
    (executeScriptBegin sampleRejectEnv "s" "p" "sh" (Sys.fresh sampleStore)).children =
      [{ executionId := "e", command := "bash", args := ["p"],
         stdout := "", stderr := "", resolved := none }] ∧
    (executeScriptBegin sampleRejectEnv "s" "p" "sh" (Sys.fresh sampleStore)).store =
      (Sys.fresh sampleStore).store :=
  ⟨rfl,
    (C6_spawn_regardless_of_insert sampleRejectEnv "s" "p" "sh" (Sys.fresh sampleStore)).1,
    (C6_spawn_regardless_of_insert sampleRejectEnv "s" "p" "sh" (Sys.fresh sampleStore)).2 rfl⟩

/-! ## C7: overlapping runs of one schedule -/

theorem runningCount_insert (s : Sys) (env : FireEnv) (scheduleId scriptPath scriptType : String)
    (hacc : insertAccepted env s = true) :
    runningCount (executeScriptBegin env scheduleId scriptPath scriptType s) scheduleId =
      runningCount s scheduleId + 1 := by
  obtain ⟨hins, hfresh⟩ := insertAccepted_fresh env s hacc
  simp [runningCount, executeScriptBegin, hins, insertExecution_fresh _ _ _ _ _ hfresh,
    List.filter_append]

theorem exitStatus_ne_running (code : Option Int) : exitStatus code ≠ "running" := by
  unfold exitStatus
  split <;> decide

theorem countP_map_le {α : Type} (p : α → Bool) (f : α → α) (l : List α)
    (h : ∀ x, p (f x) = true → p x = true) :
    ((l.map f).filter p).length ≤ (l.filter p).length := by
  induction l with
  | nil => simp
  | cons x xs ih =>
    simp only [List.map_cons, List.filter_cons]
    by_cases hx : p (f x) = true
    · simp only [hx, h x hx, if_true, List.length_cons]
      omega
    · simp only [hx, if_false, Bool.false_eq_true]
      split
      · simp only [List.length_cons]
        omega
      · exact ih

theorem runningCount_event_le (s : Sys) (idx : Nat) (ev : ChildEvent) (scheduleId : String) :
    runningCount (childStep idx ev s) scheduleId ≤ runningCount s scheduleId := by
  unfold childStep
  cases hget : s.children.get? idx with
  | none => simp
  | some c =>
    cases ev with
    | stdoutData d => simp [handleEvent, runningCount]
    | stderrData d => simp [handleEvent, runningCount]
    | close code ft ok =>
      cases ok with
      | false => simp [handleEvent, runningCount, Store.updateOnClose]
      | true =>
        simp only [handleEvent, runningCount, Store.updateOnClose, if_true]
        apply countP_map_le
        intro x hx
        by_cases hid : x.id = c.executionId
        · simp [hid, exitStatus_ne_running] at hx
        · simpa [hid] using hx
    | error m ft ok =>
      cases ok with
      | false => simp [handleEvent, runningCount, Store.updateOnError]
      | true =>
        simp only [handleEvent, runningCount, Store.updateOnError, if_true]
        apply countP_map_le
        intro x hx
        by_cases hid : x.id = c.executionId
        · simp [hid] at hx
        · simpa [hid] using hx

/-- C7 fails: after start-up with one active schedule `s`, two fires of its task, the second
arriving while the first run is still in flight, are two steps of the backend and leave two
Executions of `s` with status `running`. -/
theorem C7_two_running_executions :
    Reachable sampleLoaded
      (triggerFire 0 (fireEnvOf "e2") (triggerFire 0 (fireEnvOf "e1") sampleLoaded)) ∧
    runningCount sampleLoaded "s" = 0 ∧
    runningCount (triggerFire 0 (fireEnvOf "e1") sampleLoaded) "s" = 1 ∧
    runningCount
      (triggerFire 0 (fireEnvOf "e2") (triggerFire 0 (fireEnvOf "e1") sampleLoaded)) "s" = 2 :=
  ⟨.step (.step .init (.fire _ 0 (fireEnvOf "e1") (by decide)))
      (.fire _ 0 (fireEnvOf "e2") (by decide)),
    by decide, by decide, by decide⟩

/-- C7 as amended: a fire is never deferred. In every state, whatever runs are in flight, a
fire of a started task and an immediate run each insert one more `running` Execution of their
schedule at once (the store accepting the INSERT), so one schedule can have several `running`
Executions. The events of a child process never add a `running` Execution: chunks of output
leave the store as it is, and a completion (close or error, the store accepting the UPDATE)
rewrites exactly the Executions whose id is that of its own run, to a terminal status, and
leaves every other Execution as it is. -/
theorem C7_fire_never_deferred (s : Sys) (env : FireEnv)
    (hacc : insertAccepted env s = true) :
    (∀ (job : Nat) (t : CronTask), s.tasks.get? job = some t → t.started = true →
      runningCount (triggerFire job env s) t.scheduleId = runningCount s t.scheduleId + 1) ∧
    (∀ scheduleId scriptPath scriptType : String,
      runningCount (executeScriptBegin env scheduleId scriptPath scriptType s) scheduleId =
        runningCount s scheduleId + 1) ∧
    (∀ (idx : Nat) (ev : ChildEvent) (scheduleId : String),
      runningCount (childStep idx ev s) scheduleId ≤ runningCount s scheduleId) ∧
    (∀ (idx : Nat) (ev : ChildEvent), ev.isData = true →
      (childStep idx ev s).store = s.store) ∧
    (∀ (idx : Nat) (c : Child), s.children.get? idx = some c →
      ∀ (code : Option Int) (finishTime : String),
        (childStep idx (.close code finishTime true) s).store.executions =
          s.store.executions.map (fun r =>
            if r.id = c.executionId then
              { r with status := exitStatus code, finished_at := some finishTime,
                       stdout := some c.stdout, stderr := some c.stderr, exit_code := code }
            else r) ∧
        exitStatus code ≠ "running") ∧
    (∀ (idx : Nat) (c : Child), s.children.get? idx = some c →
      ∀ (message finishTime : String),
        (childStep idx (.error message finishTime true) s).store.executions =
          s.store.executions.map (fun r =>
            if r.id = c.executionId then
              { r with status := "failed", finished_at := some finishTime,
                       stderr := some message }
            else r)) := by
  refine ⟨?_, ?_, ?_, ?_, ?_, ?_⟩
  · intro job t hget hstarted
    simp only [triggerFire, hget, hstarted, if_true]
    exact runningCount_insert s env _ _ _ hacc
  · intro scheduleId scriptPath scriptType
    exact runningCount_insert s env _ _ _ hacc
  · intro idx ev scheduleId
    exact runningCount_event_le s idx ev scheduleId
  · intro idx ev hev
    unfold childStep
    cases hget : s.children.get? idx with
    | none => rfl
    | some c =>
      cases ev with
      | stdoutData d => rfl
      | stderrData d => rfl
      | close code ft ok => simp [ChildEvent.isData] at hev
      | error m ft ok => simp [ChildEvent.isData] at hev
  · intro idx c hget code finishTime
    refine ⟨?_, exitStatus_ne_running code⟩
    unfold childStep
    rw [hget]
    simp [handleEvent, Store.updateOnClose]
  · intro idx c hget message finishTime
    unfold childStep
    rw [hget]
    simp [handleEvent, Store.updateOnError]

/-- C7 as amended, at a second fire that arrives while the first run is in flight, and at the
close of the first run while the second is in flight. -/
theorem C7_fire_never_deferred_witness :
    insertAccepted (fireEnvOf "e2") (triggerFire 0 (fireEnvOf "e1") sampleLoaded) = true ∧
    (triggerFire 0 (fireEnvOf "e1") sampleLoaded).tasks.get? 0 =
      some ⟨"*/5 * * * *", "s", "a.sh", "uploads/scripts/a_a.sh", "sh", true⟩ ∧
    runningCount (triggerFire 0 (fireEnvOf "e2") (triggerFire 0 (fireEnvOf "e1") sampleLoaded))
        "s" =
      runningCount (triggerFire 0 (fireEnvOf "e1") sampleLoaded) "s" + 1 ∧
    (childStep 0 (.close (some 0) "t1" true)
        (triggerFire 0 (fireEnvOf "e2")
          (triggerFire 0 (fireEnvOf "e1") sampleLoaded))).store.executions.map
      (fun r => (r.id, r.status)) = [("e1", "success"), ("e2", "running")] :=
  ⟨by decide, by decide,
    (C7_fire_never_deferred (triggerFire 0 (fireEnvOf "e1") sampleLoaded) (fireEnvOf "e2")
      (by decide)).1 0 ⟨"*/5 * * * *", "s", "a.sh", "uploads/scripts/a_a.sh", "sh", true⟩
      (by decide) rfl,
    by decide⟩

/-! ## The reload, row by row -/

theorem registerRow_not_found (env : LoadEnv) (s : Sys) (r : ScheduleRow)
    (h : scriptFound env s.store r = false) : registerRow env s r = s := by
  unfold scriptFound at h
  unfold registerRow
  cases hq : (if env.lookupOk r then s.store.getScript r.script_id else none) with
  | none => rfl
  | some script => simp [hq] at h

theorem registerRow_found (env : LoadEnv) (s : Sys) (r : ScheduleRow)
    (h : scriptFound env s.store r = true) :
    ∃ t : CronTask, t.expression = r.cron_expression ∧ t.scheduleId = r.id ∧ t.started = true ∧
      registerRow env s r =
        { s with tasks := s.tasks ++ [t], activeJobs := mapSet s.activeJobs r.id s.tasks.length } := by
  unfold scriptFound at h
  unfold registerRow
  cases hq : (if env.lookupOk r then s.store.getScript r.script_id else none) with
  | none => simp [hq] at h
  | some script => exact ⟨_, rfl, rfl, rfl, rfl⟩

theorem registerRow_store (env : LoadEnv) (s : Sys) (r : ScheduleRow) :
    (registerRow env s r).store = s.store ∧ (registerRow env s r).children = s.children := by
  cases h : scriptFound env s.store r with
  | false => rw [registerRow_not_found env s r h]; exact ⟨rfl, rfl⟩
  | true =>
    obtain ⟨t, -, -, -, ht⟩ := registerRow_found env s r h
    rw [ht]
    exact ⟨rfl, rfl⟩

theorem foldl_registerRow_store (env : LoadEnv) (rows : List ScheduleRow) :
    ∀ s : Sys, (rows.foldl (registerRow env) s).store = s.store ∧
      (rows.foldl (registerRow env) s).children = s.children := by
  induction rows with
  | nil => intro s; exact ⟨rfl, rfl⟩
  | cons r rs ih =>
    intro s
    simp only [List.foldl_cons]
    obtain ⟨h1, h2⟩ := ih (registerRow env s r)
    obtain ⟨h3, h4⟩ := registerRow_store env s r
    exact ⟨h1.trans h3, h2.trans h4⟩

/-- Registry after the callbacks of the rows: an id is registered when it was before or when
one of the rows has it and its script is found. -/
theorem foldl_registerRow_registered (env : LoadEnv) (id : String) (rows : List ScheduleRow) :
    ∀ s : Sys, ((rows.foldl (registerRow env) s).activeJobs id).isSome = true ↔
      ((s.activeJobs id).isSome = true ∨
        ∃ r ∈ rows, r.id = id ∧ scriptFound env s.store r = true) := by
  induction rows with
  | nil => intro s; simp
  | cons r rs ih =>
    intro s
    simp only [List.foldl_cons]
    rw [ih (registerRow env s r), (registerRow_store env s r).1]
    cases h : scriptFound env s.store r with
    | false =>
      rw [registerRow_not_found env s r h]
      constructor
      · rintro (h1 | ⟨x, hx, hid, hf⟩)
        · exact Or.inl h1
        · exact Or.inr ⟨x, List.mem_cons_of_mem _ hx, hid, hf⟩
      · rintro (h1 | ⟨x, hx, hid, hf⟩)
        · exact Or.inl h1
        · rcases List.mem_cons.mp hx with rfl | hx
          · rw [h] at hf; exact absurd hf (by decide)
          · exact Or.inr ⟨x, hx, hid, hf⟩
    | true =>
      obtain ⟨t, -, -, -, ht⟩ := registerRow_found env s r h
      rw [ht]
      simp only [mapSet]
      constructor
      · rintro (h1 | ⟨x, hx, hid, hf⟩)
        · by_cases hk : id = r.id
          · exact Or.inr ⟨r, List.mem_cons_self _ _, hk.symm, h⟩
          · simp only [hk, if_false] at h1
            exact Or.inl h1
        · exact Or.inr ⟨x, List.mem_cons_of_mem _ hx, hid, hf⟩
      · rintro (h1 | ⟨x, hx, hid, hf⟩)
        · by_cases hk : id = r.id
          · left; simp [hk]
          · left; simpa [hk] using h1
        · rcases List.mem_cons.mp hx with rfl | hx
          · left; simp [hid]
          · exact Or.inr ⟨x, hx, hid, hf⟩

theorem registerRow_handlesValid (env : LoadEnv) (s : Sys) (r : ScheduleRow)
    (hv : handlesValid s) : handlesValid (registerRow env s r) := by
  cases h : scriptFound env s.store r with
  | false => rw [registerRow_not_found env s r h]; exact hv
  | true =>
    obtain ⟨t, -, hsid, hst, ht⟩ := registerRow_found env s r h
    rw [ht]
    intro id hd hmap
    simp only [mapSet] at hmap
    by_cases hk : id = r.id
    · simp only [hk, if_true, Option.some.injEq] at hmap
      subst hmap
      exact ⟨t, get?_last _ _, hsid.trans hk.symm, hst⟩
    · simp only [hk, if_false] at hmap
      obtain ⟨u, hu, h1, h2⟩ := hv id hd hmap
      refine ⟨u, ?_, h1, h2⟩
      show (s.tasks ++ [t]).get? hd = some u
      have hlt : hd < s.tasks.length := by
        by_contra hge
        rw [List.get?_eq_none.mpr (by omega)] at hu
        exact absurd hu (by simp)
      rw [List.get?_eq_getElem?] at hu ⊢
      rw [List.getElem?_append_left hlt]
      exact hu

theorem foldl_registerRow_handlesValid (env : LoadEnv) (rows : List ScheduleRow) :
    ∀ s : Sys, handlesValid s → handlesValid (rows.foldl (registerRow env) s) := by
  induction rows with
  | nil => intro s hv; exact hv
  | cons r rs ih =>
    intro s hv
    simp only [List.foldl_cons]
    exact ih _ (registerRow_handlesValid env s r hv)

theorem startedJobs_append_one (s : Sys) (t : CronTask) (a : String → Option Nat) (id : String)
    (hst : t.started = true) :
    startedJobs { s with tasks := s.tasks ++ [t], activeJobs := a } id =
      startedJobs s id + (if t.scheduleId = id then 1 else 0) := by
  by_cases h : t.scheduleId = id
  · simp [startedJobs, List.filter_append, hst, h]
  · simp [startedJobs, List.filter_append, hst, h]

/-- Started tasks after the callbacks of the rows: one more for each row of the schedule whose
script is found, whatever is registered already. -/
theorem foldl_registerRow_started (env : LoadEnv) (id : String) (rows : List ScheduleRow) :
    ∀ s : Sys, startedJobs (rows.foldl (registerRow env) s) id =
      startedJobs s id +
        (rows.filter (fun r => decide (r.id = id) && scriptFound env s.store r)).length := by
  induction rows with
  | nil => intro s; simp
  | cons r rs ih =>
    intro s
    simp only [List.foldl_cons]
    rw [ih (registerRow env s r), (registerRow_store env s r).1]
    cases h : scriptFound env s.store r with
    | false =>
      rw [registerRow_not_found env s r h]
      simp [List.filter_cons, h]
    | true =>
      obtain ⟨t, -, hsid, hst, ht⟩ := registerRow_found env s r h
      rw [ht, startedJobs_append_one s t _ id hst, hsid]
      by_cases hk : r.id = id
      · simp [List.filter_cons, h, hk]
        omega
      · simp [List.filter_cons, h, hk]

/-- Expressions of the tasks after the callbacks of the rows: the stored `cron_expression` of
each row whose script is found. -/
theorem foldl_registerRow_expressions (env : LoadEnv) (rows : List ScheduleRow) :
    ∀ s : Sys, (rows.foldl (registerRow env) s).tasks.map (fun t => t.expression) =
      s.tasks.map (fun t => t.expression) ++
        (rows.filter (fun r => scriptFound env s.store r)).map (fun r => r.cron_expression) := by
  induction rows with
  | nil => intro s; simp
  | cons r rs ih =>
    intro s
    simp only [List.foldl_cons]
    rw [ih (registerRow env s r), (registerRow_store env s r).1]
    cases h : scriptFound env s.store r with
    | false =>
      rw [registerRow_not_found env s r h]
      simp [List.filter_cons, h]
    | true =>
      obtain ⟨t, hexp, -, -, ht⟩ := registerRow_found env s r h
      rw [ht]
      simp [List.filter_cons, h, hexp]

theorem filter_key_le_one (id : String) (q : ScheduleRow → Bool) (rows : List ScheduleRow)
    (hnd : (rows.map (fun r => r.id)).Nodup) :
    (rows.filter (fun r => decide (r.id = id) && q r)).length ≤ 1 := by
  induction rows with
  | nil => simp
  | cons r rs ih =>
    have hnd2 : (rs.map (fun r => r.id)).Nodup := (List.nodup_cons.mp hnd).2
    have hnot : r.id ∉ rs.map (fun r => r.id) := (List.nodup_cons.mp hnd).1
    by_cases hk : r.id = id
    · have hnone : rs.filter (fun r => decide (r.id = id) && q r) = [] := by
        rw [List.filter_eq_nil_iff]
        intro x hx hp
        simp only [Bool.and_eq_true, decide_eq_true_eq] at hp
        exact hnot (List.mem_map.mpr ⟨x, hx, hp.1.trans hk.symm⟩)
      simp only [List.filter_cons, hnone]
      split <;> simp
    · simp only [List.filter_cons, hk, decide_False, Bool.false_and, Bool.false_eq_true,
        if_false]
      exact ih hnd2


/-! ## The reload as a whole -/

theorem loadOne_eq (env : LoadEnv) (s : Sys) (r : ScheduleRow) :
    loadOne env s r =
      if scriptFound env s.store r = true ∧ cronAccepts env.cronLib r.cron_expression = false
      then none else some (registerRow env s r) := by
  unfold loadOne registerRow scriptFound
  cases hq : (if env.lookupOk r then s.store.getScript r.script_id else none) with
  | none => simp
  | some script =>
    cases ha : cronAccepts env.cronLib r.cron_expression with
    | true => simp
    | false => simp

/-- When the expression of every row whose script is found is accepted, the process lives
through the callbacks, which leave the state of `registerRow` row after row. -/
theorem loadRows_accepted (env : LoadEnv) (rows : List ScheduleRow) :
    ∀ s : Sys, (∀ r ∈ rows, scriptFound env s.store r = true →
        cronAccepts env.cronLib r.cron_expression = true) →
      loadRows env rows s = some (rows.foldl (registerRow env) s) := by
  induction rows with
  | nil => intro s _; rfl
  | cons r rs ih =>
    intro s h
    have hr : ¬ (scriptFound env s.store r = true ∧
        cronAccepts env.cronLib r.cron_expression = false) := by
      rintro ⟨h1, h2⟩
      rw [h r (List.mem_cons_self _ _) h1] at h2
      exact absurd h2 (by decide)
    simp only [loadRows, loadOne_eq, if_neg hr, List.foldl_cons]
    apply ih
    intro x hx hf
    rw [(registerRow_store env s r).1] at hf
    exact h x (List.mem_cons_of_mem _ hx) hf

/-- When the expression of some row whose script is found is rejected, the process does not
live through the callbacks. -/
theorem loadRows_rejected (env : LoadEnv) (rows : List ScheduleRow) :
    ∀ s : Sys, (∃ r ∈ rows, scriptFound env s.store r = true ∧
        cronAccepts env.cronLib r.cron_expression = false) →
      loadRows env rows s = none := by
  induction rows with
  | nil => intro s ⟨r, hr, _⟩; cases hr
  | cons x xs ih =>
    intro s ⟨r, hr, hf, ha⟩
    simp only [loadRows, loadOne_eq]
    by_cases hx : scriptFound env s.store x = true ∧
        cronAccepts env.cronLib x.cron_expression = false
    · rw [if_pos hx]
    · rw [if_neg hx]
      simp only
      apply ih
      rcases List.mem_cons.mp hr with rfl | hr
      · exact absurd ⟨hf, ha⟩ hx
      · refine ⟨r, hr, ?_, ha⟩
        rw [(registerRow_store env s x).1]
        exact hf

theorem loadExistingSchedules_accepted (env : LoadEnv) (s : Sys) (hq : env.queryOk = true)
    (hacc : expressionsAccepted env s.store) :
    loadExistingSchedules env s =
      some ((s.store.schedules.filter (fun r => r.is_active)).foldl (registerRow env) s) := by
  unfold loadExistingSchedules
  simp only [hq, Bool.not_true, Bool.false_eq_true, if_false]
  apply loadRows_accepted
  intro r hr hf
  rw [List.mem_filter] at hr
  exact hacc r hr.1 hr.2 hf

theorem foldl_registerRow_tasks_prefix (env : LoadEnv) (rows : List ScheduleRow) :
    ∀ s : Sys, ∃ extra : List CronTask, (rows.foldl (registerRow env) s).tasks = s.tasks ++ extra := by
  induction rows with
  | nil => intro s; exact ⟨[], by simp⟩
  | cons r rs ih =>
    intro s
    simp only [List.foldl_cons]
    obtain ⟨extra, he⟩ := ih (registerRow env s r)
    cases h : scriptFound env s.store r with
    | false =>
      rw [registerRow_not_found env s r h] at he ⊢
      exact ⟨extra, he⟩
    | true =>
      obtain ⟨t, -, -, -, ht⟩ := registerRow_found env s r h
      rw [ht] at he ⊢
      exact ⟨[t] ++ extra, by rw [he]; simp⟩

/-- A row of the schedule whose script is found leaves the schedule registered under a handle
that is a position of a task created by these callbacks. -/
theorem foldl_registerRow_handle (env : LoadEnv) (id : String) (rows : List ScheduleRow) :
    ∀ s : Sys, (∃ r ∈ rows, r.id = id ∧ scriptFound env s.store r = true) →
      ∃ h : Nat, (rows.foldl (registerRow env) s).activeJobs id = some h ∧ s.tasks.length ≤ h := by
  induction rows with
  | nil => intro s ⟨r, hr, _⟩; cases hr
  | cons x xs ih =>
    intro s ⟨r, hr, hid, hf⟩
    simp only [List.foldl_cons]
    by_cases hlater : ∃ r ∈ xs, r.id = id ∧ scriptFound env s.store r = true
    · obtain ⟨r2, hr2, hid2, hf2⟩ := hlater
      have hf3 : scriptFound env (registerRow env s x).store r2 = true := by
        rw [(registerRow_store env s x).1]; exact hf2
      obtain ⟨h, hh, hle⟩ := ih (registerRow env s x) ⟨r2, hr2, hid2, hf3⟩
      refine ⟨h, hh, le_trans ?_ hle⟩
      obtain ⟨extra, he⟩ := foldl_registerRow_tasks_prefix env [x] s
      simp only [List.foldl_cons, List.foldl_nil] at he
      rw [he]
      simp
    · have hx : x.id = id ∧ scriptFound env s.store x = true := by
        rcases List.mem_cons.mp hr with rfl | hr
        · exact ⟨hid, hf⟩
        · exact absurd ⟨r, hr, hid, hf⟩ hlater
      obtain ⟨t, -, -, -, ht⟩ := registerRow_found env s x hx.2
      have hnone : ¬ ∃ r ∈ xs, r.id = id ∧
          scriptFound env (registerRow env s x).store r = true := by
        rw [(registerRow_store env s x).1]; exact hlater
      have hkeep : ∀ (ys : List ScheduleRow) (u : Sys),
          (¬ ∃ r ∈ ys, r.id = id ∧ scriptFound env u.store r = true) →
          (ys.foldl (registerRow env) u).activeJobs id = u.activeJobs id := by
        intro ys
        induction ys with
        | nil => intro u _; rfl
        | cons y ys ihy =>
          intro u hno
          simp only [List.foldl_cons]
          have hno2 : ¬ ∃ r ∈ ys, r.id = id ∧
              scriptFound env (registerRow env u y).store r = true := by
            rw [(registerRow_store env u y).1]
            rintro ⟨r, hr, h1, h2⟩
            exact hno ⟨r, List.mem_cons_of_mem _ hr, h1, h2⟩
          rw [ihy _ hno2]
          cases hy : scriptFound env u.store y with
          | false => rw [registerRow_not_found env u y hy]
          | true =>
            obtain ⟨t2, -, -, -, ht2⟩ := registerRow_found env u y hy
            rw [ht2]
            have hne : id ≠ y.id := by
              intro he
              exact hno ⟨y, List.mem_cons_self _ _, he.symm, hy⟩
            simp [mapSet, hne]
      refine ⟨s.tasks.length, ?_, le_refl _⟩
      rw [hkeep xs _ hnone, ht]
      simp [mapSet, hx.1]

theorem loadRows_store (env : LoadEnv) (rows : List ScheduleRow) (s : Sys) :
    (rows.foldl (registerRow env) s).store = s.store ∧
      (rows.foldl (registerRow env) s).children = s.children :=
  foldl_registerRow_store env rows s

theorem startedJobs_foldl_active (env : LoadEnv) (s : Sys) (id : String) :
    startedJobs ((s.store.schedules.filter (fun r => r.is_active)).foldl (registerRow env) s) id =
      startedJobs s id + activeWithScript env s.store id := by
  unfold activeWithScript
  rw [foldl_registerRow_started, List.filter_filter]
  congr 2
  apply List.filter_congr
  intro x _
  show (decide (x.id = id) && scriptFound env s.store x && x.is_active) =
    (x.is_active && (decide (x.id = id) && scriptFound env s.store x))
  generalize x.is_active = a
  generalize decide (x.id = id) = b
  generalize scriptFound env s.store x = c
  cases a <;> cases b <;> cases c <;> rfl

/-! ## C8, C9, C10: the start-up reload -/

/-- C8 fails: over a store whose Active schedule, with an existing script, carries the
expression `0 0 */32 * *` (the one that the create handler compiles and persists for
('days', 32)), `cron.schedule` throws in the callback and the reload ends the process instead
of registering or skipping the schedule, whatever the library does with other texts. -/
theorem C8_reload_dies_on_rejected_expression :
    frequencyToCron (.str "days") (.num 32) = .ok "0 0 */32 * *" ∧
    cronAccepts sampleLoadEnv.cronLib "0 0 */32 * *" = false ∧
    cronAccepts sampleLenientLoadEnv.cronLib "0 0 */32 * *" = false ∧
    (loadExistingSchedules sampleLoadEnv (Sys.fresh sampleRejectedStore)).isSome = false ∧
    (loadExistingSchedules sampleLenientLoadEnv (Sys.fresh sampleRejectedStore)).isSome = false :=
  ⟨rfl, by decide, by decide, by decide, by decide⟩

/-- C8 as amended: for every durable store in which every Active schedule whose Script exists
carries an expression that `cron.schedule` accepts, one call of loadExistingSchedules on an
empty registry, the queries succeeding, leaves activeJobs holding a handle for exactly the
schedule ids that are Active in the store and whose Script exists (so none for a schedule that
is only Inactive, and none for an Active schedule whose Script is missing, the others being
registered all the same); each handle is a started task of its schedule; the store and the
child processes are unchanged, so no Execution record is created and nothing is run. When
some Active schedule whose Script exists carries an expression that `cron.schedule` rejects,
the reload ends the process. -/
theorem C8_reload_registers_active_with_script (st : Store) (env : LoadEnv)
    (ts : List CronTask) (cs : List Child)
    (hq : env.queryOk = true) (hl : ∀ r : ScheduleRow, env.lookupOk r = true) :
    (expressionsAccepted env st →
      ∃ s1 : Sys, loadExistingSchedules env ⟨st, fun _ => none, ts, cs⟩ = some s1 ∧
        (∀ id : String, (s1.activeJobs id).isSome = true ↔
          ∃ r ∈ st.schedules, r.id = id ∧ r.is_active = true ∧
            (st.getScript r.script_id).isSome = true) ∧
        (∀ (id : String) (h : Nat), s1.activeJobs id = some h →
          ∃ t : CronTask, s1.tasks.get? h = some t ∧ t.scheduleId = id ∧ t.started = true) ∧
        s1.store = st ∧ s1.children = cs) ∧
    ((∃ r ∈ st.schedules, r.is_active = true ∧ (st.getScript r.script_id).isSome = true ∧
        cronAccepts env.cronLib r.cron_expression = false) →
      loadExistingSchedules env ⟨st, fun _ => none, ts, cs⟩ = none) := by
  constructor
  · intro hacc
    refine ⟨_, loadExistingSchedules_accepted env ⟨st, fun _ => none, ts, cs⟩ hq hacc, ?_, ?_,
      (foldl_registerRow_store env _ _).1, (foldl_registerRow_store env _ _).2⟩
    · intro id
      rw [foldl_registerRow_registered]
      simp only [Option.isSome_none, Bool.false_eq_true, false_or, List.mem_filter, scriptFound,
        hl, if_true]
      constructor
      · rintro ⟨r, ⟨hr, hact⟩, hid, hf⟩
        exact ⟨r, hr, hid, hact, hf⟩
      · rintro ⟨r, hr, hid, hact, hf⟩
        exact ⟨r, ⟨hr, hact⟩, hid, hf⟩
    · have hv0 : handlesValid ⟨st, fun _ => none, ts, cs⟩ := by
        intro id h hmap
        simp at hmap
      exact foldl_registerRow_handlesValid env _ _ hv0
  · rintro ⟨r, hr, hact, hf, ha⟩
    unfold loadExistingSchedules
    simp only [hq, Bool.not_true, Bool.false_eq_true, if_false]
    apply loadRows_rejected
    refine ⟨r, List.mem_filter.mpr ⟨hr, hact⟩, ?_, ha⟩
    simp only [scriptFound, hl, if_true]
    exact hf

/-- C8 as amended, at a store with an active schedule `s`, an inactive one `i` and an active
one `m` whose script is missing: only `s` is registered. -/
theorem C8_reload_registers_active_with_script_witness :
    sampleLoadEnv.queryOk = true ∧ (∀ r : ScheduleRow, sampleLoadEnv.lookupOk r = true) ∧
    expressionsAccepted sampleLoadEnv sampleMixedStore ∧
    (∃ s1 : Sys,
      loadExistingSchedules sampleLoadEnv ⟨sampleMixedStore, fun _ => none, [], []⟩ = some s1 ∧
      (∀ id : String, (s1.activeJobs id).isSome = true ↔
        ∃ r ∈ sampleMixedStore.schedules, r.id = id ∧ r.is_active = true ∧
          (sampleMixedStore.getScript r.script_id).isSome = true) ∧
      (∀ (id : String) (h : Nat), s1.activeJobs id = some h →
        ∃ t : CronTask, s1.tasks.get? h = some t ∧ t.scheduleId = id ∧ t.started = true) ∧
      s1.store = sampleMixedStore ∧ s1.children = []) ∧
    (loadExistingSchedules sampleLoadEnv ⟨sampleMixedStore, fun _ => none, [], []⟩).map
      (fun s => (s.activeJobs "s", s.activeJobs "i", s.activeJobs "m")) =
      some (some 0, none, none) :=
  ⟨rfl, fun _ => rfl, by unfold expressionsAccepted; decide,
    (C8_reload_registers_active_with_script sampleMixedStore sampleLoadEnv [] [] rfl
      (fun _ => rfl)).1 (by unfold expressionsAccepted; decide),
    by decide⟩

/-- C9 fails: over a store with one active schedule `s`, a single reload leaves one started
cron job for `s` and a second reload leaves two, of which only the second is registered. -/
theorem C9_second_reload_duplicates :
    (loadExistingSchedules sampleLoadEnv (Sys.fresh sampleScheduleStore)).map
      (fun s => (startedJobs s "s", s.activeJobs "s")) = some (1, some 0) ∧
    ((loadExistingSchedules sampleLoadEnv (Sys.fresh sampleScheduleStore)).bind
      (loadExistingSchedules sampleLoadEnv)).map
      (fun s => (startedJobs s "s", s.activeJobs "s", s.tasks.map (fun t => t.started))) =
      some (2, some 1, [true, true]) :=
  ⟨by decide, by decide⟩

/-- C9 as amended: activeJobs is a map, so it holds at most one handle per schedule id, but
loadExistingSchedules neither consults it nor stops the job it replaces: every invocation
creates and starts one new cron job for each Active schedule whose Script is found (the
expressions being accepted by `cron.schedule`). After one invocation on the state of a fresh
process each such schedule has one started cron job, after two invocations in a row it has
two: the job of the first invocation, still started and no longer registered under any id,
and the job of the second, which is the one that activeJobs holds. -/
theorem C9_each_reload_adds_a_job (st : Store) (env : LoadEnv) (id : String)
    (hq : env.queryOk = true) (hacc : expressionsAccepted env st) :
    ∃ s1 s2 : Sys,
      loadExistingSchedules env (Sys.fresh st) = some s1 ∧
      loadExistingSchedules env s1 = some s2 ∧
      startedJobs s1 id = activeWithScript env st id ∧
      startedJobs s2 id = 2 * activeWithScript env st id ∧
      ((st.schedules.map (fun r => r.id)).Nodup →
        (∃ r ∈ st.schedules, r.id = id ∧ r.is_active = true ∧ scriptFound env st r = true) →
        startedJobs s1 id = 1 ∧ startedJobs s2 id = 2 ∧
        ∃ (h1 h2 : Nat) (t1 t2 : CronTask),
          s1.activeJobs id = some h1 ∧ s2.activeJobs id = some h2 ∧ h1 < h2 ∧
          s2.tasks.get? h1 = some t1 ∧ t1.scheduleId = id ∧ t1.started = true ∧
          s2.tasks.get? h2 = some t2 ∧ t2.scheduleId = id ∧ t2.started = true ∧
          ∀ k : String, s2.activeJobs k ≠ some h1) := by
  have hs1 : (((Sys.fresh st).store.schedules.filter (fun r => r.is_active)).foldl
      (registerRow env) (Sys.fresh st)).store = st :=
    (foldl_registerRow_store env _ (Sys.fresh st)).1
  have hl1 := loadExistingSchedules_accepted env (Sys.fresh st) hq hacc
  generalize hS1 : ((Sys.fresh st).store.schedules.filter (fun r => r.is_active)).foldl
      (registerRow env) (Sys.fresh st) = s1 at hs1 hl1
  have hacc1 : expressionsAccepted env s1.store := by rw [hs1]; exact hacc
  have hl2 := loadExistingSchedules_accepted env s1 hq hacc1
  have h1 : startedJobs s1 id = activeWithScript env st id := by
    rw [← hS1, startedJobs_foldl_active]
    simp [startedJobs, Sys.fresh]
  have h2 : startedJobs ((s1.store.schedules.filter (fun r => r.is_active)).foldl
      (registerRow env) s1) id = 2 * activeWithScript env st id := by
    rw [startedJobs_foldl_active, h1, hs1]
    omega
  refine ⟨s1, _, hl1, hl2, h1, h2, ?_⟩
  intro hnd ⟨r, hr, hid, hact, hf⟩
  have hle : activeWithScript env st id ≤ 1 := by
    unfold activeWithScript
    have := filter_key_le_one id (fun r => scriptFound env st r && r.is_active) st.schedules hnd
    refine le_trans (le_of_eq ?_) this
    congr 1
    apply List.filter_congr
    intro x _
    show (x.is_active && (decide (x.id = id) && scriptFound env st x)) =
      (decide (x.id = id) && (scriptFound env st x && x.is_active))
    generalize x.is_active = a
    generalize decide (x.id = id) = b
    generalize scriptFound env st x = c
    cases a <;> cases b <;> cases c <;> rfl
  have hge : 1 ≤ activeWithScript env st id := by
    unfold activeWithScript
    apply List.length_pos_of_mem (a := r)
    simp [List.mem_filter, hr, hid, hact, hf]
  have h3 : activeWithScript env st id = 1 := by omega
  rw [h1, h2, h3]
  refine ⟨rfl, rfl, ?_⟩
  have hv0 : handlesValid (Sys.fresh st) := by
    intro k h hmap
    simp [Sys.fresh] at hmap
  have hv1 : handlesValid s1 := by
    rw [← hS1]
    exact foldl_registerRow_handlesValid env _ _ hv0
  have hv2 := foldl_registerRow_handlesValid env
    (s1.store.schedules.filter (fun r => r.is_active)) s1 hv1
  have hrow0 : ∃ x ∈ (Sys.fresh st).store.schedules.filter (fun r => r.is_active),
      x.id = id ∧ scriptFound env (Sys.fresh st).store x = true :=
    ⟨r, List.mem_filter.mpr ⟨hr, hact⟩, hid, hf⟩
  have hrow1 : ∃ x ∈ s1.store.schedules.filter (fun r => r.is_active),
      x.id = id ∧ scriptFound env s1.store x = true := by
    rw [hs1]
    exact ⟨r, List.mem_filter.mpr ⟨hr, hact⟩, hid, hf⟩
  obtain ⟨a1, ha1, -⟩ := foldl_registerRow_handle env id _ (Sys.fresh st) hrow0
  rw [hS1] at ha1
  obtain ⟨a2, ha2, hle2⟩ := foldl_registerRow_handle env id _ s1 hrow1
  obtain ⟨t1, ht1, hsid1, hst1⟩ := hv1 id a1 ha1
  obtain ⟨t2, ht2, hsid2, hst2⟩ := hv2 id a2 ha2
  have hlt : a1 < s1.tasks.length := by
    by_contra hge1
    rw [List.get?_eq_none.mpr (by omega)] at ht1
    exact absurd ht1 (by simp)
  obtain ⟨extra, hextra⟩ := foldl_registerRow_tasks_prefix env
    (s1.store.schedules.filter (fun r => r.is_active)) s1
  have ht1b : ((s1.store.schedules.filter (fun r => r.is_active)).foldl
      (registerRow env) s1).tasks.get? a1 = some t1 := by
    rw [hextra]
    rw [List.get?_eq_getElem?] at ht1 ⊢
    rw [List.getElem?_append_left hlt]
    exact ht1
  refine ⟨a1, a2, t1, t2, ha1, ha2, by omega, ht1b, hsid1, hst1, ht2, hsid2, hst2, ?_⟩
  intro k hk
  obtain ⟨t, ht, hsk, -⟩ := hv2 k a1 hk
  rw [ht1b] at ht
  cases ht
  rw [← hsk, hsid1, ha2] at hk
  cases hk
  omega

/-- C9 as amended, at the store with the one active schedule `s`. -/
theorem C9_each_reload_adds_a_job_witness :
    sampleLoadEnv.queryOk = true ∧ expressionsAccepted sampleLoadEnv sampleScheduleStore ∧
    (∃ s1 s2 : Sys,
      loadExistingSchedules sampleLoadEnv (Sys.fresh sampleScheduleStore) = some s1 ∧
      loadExistingSchedules sampleLoadEnv s1 = some s2 ∧
      startedJobs s1 "s" = activeWithScript sampleLoadEnv sampleScheduleStore "s" ∧
      startedJobs s2 "s" = 2 * activeWithScript sampleLoadEnv sampleScheduleStore "s" ∧
      ((sampleScheduleStore.schedules.map (fun r => r.id)).Nodup →
        (∃ r ∈ sampleScheduleStore.schedules, r.id = "s" ∧ r.is_active = true ∧
          scriptFound sampleLoadEnv sampleScheduleStore r = true) →
        startedJobs s1 "s" = 1 ∧ startedJobs s2 "s" = 2 ∧
        ∃ (h1 h2 : Nat) (t1 t2 : CronTask),
          s1.activeJobs "s" = some h1 ∧ s2.activeJobs "s" = some h2 ∧ h1 < h2 ∧
          s2.tasks.get? h1 = some t1 ∧ t1.scheduleId = "s" ∧ t1.started = true ∧
          s2.tasks.get? h2 = some t2 ∧ t2.scheduleId = "s" ∧ t2.started = true ∧
          ∀ k : String, s2.activeJobs k ≠ some h1)) ∧
    (sampleScheduleStore.schedules.map (fun r => r.id)).Nodup ∧
    (∃ r ∈ sampleScheduleStore.schedules, r.id = "s" ∧ r.is_active = true ∧
      scriptFound sampleLoadEnv sampleScheduleStore r = true) :=
  ⟨rfl, by unfold expressionsAccepted; decide,
    C9_each_reload_adds_a_job sampleScheduleStore sampleLoadEnv "s" rfl
      (by unfold expressionsAccepted; decide),
    by decide, by decide⟩

/-- C10 fails: for an Active row with frequency fields ('minutes', 5) whose stored
`cron_expression` is `0 0 1 1 *`, the reload registers a task with the stored text, not with
`*/5 * * * *`, the value of frequencyToCron at the row's frequency fields. -/
theorem C10_reload_keeps_stored_expression :
    (loadExistingSchedules sampleLoadEnv (Sys.fresh sampleStaleStore)).map
      (fun s => (s.tasks.map (fun t => t.expression), s.activeJobs "s")) =
      some (["0 0 1 1 *"], some 0) ∧
    sampleStaleStore.schedules.map (fun r => (r.frequency_type, r.frequency_value)) =
      [(.str "minutes", .num 5)] ∧
    frequencyToCron (.str "minutes") (.num 5) = .ok "*/5 * * * *" :=
  ⟨by decide, by decide, rfl⟩

/-- C10 as amended: the reload does not call frequencyToCron; in every store in which the
Active rows whose Script is found carry expressions that `cron.schedule` accepts, the
expressions of the tasks it creates are the stored `cron_expression` of those rows, in the
order of the rows, whatever the frequency fields of the rows are. -/
theorem C10_reload_registers_stored_expression (st : Store) (env : LoadEnv)
    (hq : env.queryOk = true) (hacc : expressionsAccepted env st) :
    ∃ s1 : Sys, loadExistingSchedules env (Sys.fresh st) = some s1 ∧
      s1.tasks.map (fun t => t.expression) =
        (st.schedules.filter (fun r => r.is_active && scriptFound env st r)).map
          (fun r => r.cron_expression) := by
  refine ⟨_, loadExistingSchedules_accepted env (Sys.fresh st) hq hacc, ?_⟩
  rw [foldl_registerRow_expressions, List.filter_filter]
  simp only [Sys.fresh, List.map_nil, List.nil_append]
  congr 1
  apply List.filter_congr
  intro x _
  exact Bool.and_comm _ _

/-- C10 as amended, at the store whose row has a stored expression other than the compiled
one. -/
theorem C10_reload_registers_stored_expression_witness :
    sampleLoadEnv.queryOk = true ∧ expressionsAccepted sampleLoadEnv sampleStaleStore ∧
    (∃ s1 : Sys, loadExistingSchedules sampleLoadEnv (Sys.fresh sampleStaleStore) = some s1 ∧
      s1.tasks.map (fun t => t.expression) =
        (sampleStaleStore.schedules.filter
          (fun r => r.is_active && scriptFound sampleLoadEnv sampleStaleStore r)).map
          (fun r => r.cron_expression)) ∧
    (sampleStaleStore.schedules.filter
        (fun r => r.is_active && scriptFound sampleLoadEnv sampleStaleStore r)).map
        (fun r => r.cron_expression) = ["0 0 1 1 *"] :=
  ⟨rfl, by unfold expressionsAccepted; decide,
    C10_reload_registers_stored_expression sampleStaleStore sampleLoadEnv rfl
      (by unfold expressionsAccepted; decide),
    by decide⟩

/-! ## The schedules table under runs and under the create handler -/

theorem handleEvent_schedules (ev : ChildEvent) (c : Child) (st : Store) :
    (handleEvent ev c st).2.schedules = st.schedules := by
  cases ev with
  | stdoutData d => rfl
  | stderrData d => rfl
  | close code ft ok => cases ok <;> simp [handleEvent, Store.updateOnClose]
  | error m ft ok => cases ok <;> simp [handleEvent, Store.updateOnError]

theorem childStep_schedules (idx : Nat) (ev : ChildEvent) (s : Sys) :
    (childStep idx ev s).store.schedules = s.store.schedules := by
  unfold childStep
  cases h : s.children.get? idx with
  | none => rfl
  | some c => exact handleEvent_schedules ev c s.store

theorem awaitChild_schedules (idx : Nat) (evs : List ChildEvent) :
    ∀ s : Sys, (awaitChild idx evs s).store.schedules = s.store.schedules := by
  induction evs with
  | nil => intro s; rfl
  | cons ev rest ih =>
    intro s
    unfold awaitChild
    split
    · exact childStep_schedules idx ev s
    · rw [ih, childStep_schedules]

theorem executeScriptBegin_schedules (env : FireEnv) (scheduleId scriptPath scriptType : String)
    (s : Sys) :
    (executeScriptBegin env scheduleId scriptPath scriptType s).store.schedules =
      s.store.schedules := by
  unfold executeScriptBegin Store.insertExecution
  simp only
  split <;> rfl

theorem createSchedule_sys (req : CreateReq) (env : CreateEnv) (s : Sys) :
    (createSchedule req env s).2.store.schedules =
      (createScheduleStart req env s).sys.store.schedules := by
  unfold createSchedule
  cases h : createScheduleStart req env s with
  | done r s1 => rfl
  | awaiting child body s1 =>
    simp only [CreateStep.sys]
    split <;> exact awaitChild_schedules _ _ _

/-- The create handler leaves the schedules table as it was or, the three fields having passed
the guard and the type having compiled, appends the row built from the request. -/
theorem createSchedule_appended (req : CreateReq) (env : CreateEnv) (s : Sys) :
    (createSchedule req env s).2.store.schedules = s.store.schedules ∨
    ∃ cron : String,
      req.scriptId.truthy = true ∧ req.frequencyType.truthy = true ∧
      req.frequencyValue.truthy = true ∧
      frequencyToCron req.frequencyType req.frequencyValue = .ok cron ∧
      (createSchedule req env s).2.store.schedules = s.store.schedules ++
        [⟨env.scheduleId, req.scriptId, req.frequencyType, req.frequencyValue,
          req.startTime, req.endTime, true, cron⟩] := by
  rw [createSchedule_sys]
  unfold createScheduleStart
  split
  · exact Or.inl rfl
  · next hguard =>
    cases hfc : frequencyToCron req.frequencyType req.frequencyValue with
    | error m => exact Or.inl rfl
    | ok cronExpression =>
      simp only
      by_cases hins : (env.insertOk && !(s.store.schedules.any (fun r => r.id == env.scheduleId)))
          = true
      · right
        have hg : req.scriptId.truthy = true ∧ req.frequencyType.truthy = true ∧
            req.frequencyValue.truthy = true := by
          simpa [and_assoc] using hguard
        refine ⟨cronExpression, hg.1, hg.2.1, hg.2.2, rfl, ?_⟩
        simp only [Store.insertSchedule, hins, if_true, Bool.not_true, Bool.false_eq_true,
          if_false]
        split
        · rfl
        · split
          · rfl
          · split
            · split
              · exact executeScriptBegin_schedules _ _ _ _ _
              · exact executeScriptBegin_schedules _ _ _ _ _
            · rfl
      · left
        simp [Store.insertSchedule, hins, CreateStep.sys]

/-! ## C11: what the create handler persists -/

theorem frequencyToCron_ok_type (type value : JsVal) (c : String)
    (h : frequencyToCron type value = .ok c) :
    type = .str "minutes" ∨ type = .str "hours" ∨ type = .str "days" := by
  by_contra hne
  simp only [not_or] at hne
  rw [frequencyToCron_invalid type value hne.1 hne.2.1 hne.2.2] at h
  cases h

/-- C11 fails: a request with frequencyValue -5, and one with the text `abc`, both with type
'minutes' and an existing script, pass the guard, and the handler persists a Schedule row
for them before `cron.schedule` sees the expression. -/
theorem C11_negative_value_persisted :
    (createSchedule (sampleReqWith (.num (-5))) sampleCreateEnv
        (Sys.fresh sampleStore)).2.store.schedules =
      [{ id := "s", script_id := .str "a", frequency_type := .str "minutes",
         frequency_value := .num (-5), start_time := .undefined, end_time := .undefined,
         is_active := true, cron_expression := "*/-5 * * * *" }] ∧
    (createSchedule (sampleReqWith (.str "abc")) sampleCreateEnv
        (Sys.fresh sampleStore)).2.store.schedules =
      [{ id := "s", script_id := .str "a", frequency_type := .str "minutes",
         frequency_value := .str "abc", start_time := .undefined, end_time := .undefined,
         is_active := true, cron_expression := "*/abc * * * *" }] ∧
    (createSchedule (sampleReqWith (.num (-5))) sampleLenientCreateEnv
        (Sys.fresh sampleStore)).2.store.schedules.map (fun r => r.id) = ["s"] ∧
    (createSchedule (sampleReqWith (.str "abc")) sampleLenientCreateEnv
        (Sys.fresh sampleStore)).2.store.schedules.map (fun r => r.id) = ["s"] :=
  ⟨by decide, by decide, by decide, by decide⟩

/-- C11 as amended: every Schedule row that the create handler persists has a frequency type
among 'minutes', 'hours', 'days', that of the request, and was requested with a
frequencyValue that passed the presence guard (it is not the number 0, not the empty text, not
false, null or missing); the handler checks nothing else of the value. A request whose
frequencyValue does not pass the guard, the number 0 for one, is answered 400 and persists
nothing. -/
theorem C11_persisted_type_valid_value_present (req : CreateReq) (env : CreateEnv) (s : Sys) :
    (∀ row : ScheduleRow, row ∈ (createSchedule req env s).2.store.schedules →
      row ∉ s.store.schedules →
      (row.frequency_type = .str "minutes" ∨ row.frequency_type = .str "hours" ∨
        row.frequency_type = .str "days") ∧
      row.frequency_type = req.frequencyType ∧ req.frequencyValue.truthy = true) ∧
    (req.frequencyValue.truthy = false →
      createSchedule req env s = (.json 400 [("error", "Missing required fields")], s)) ∧
    (JsVal.num 0).truthy = false := by
  refine ⟨?_, ?_, rfl⟩
  · intro row hin hnot
    rcases createSchedule_appended req env s with h | ⟨cron, -, -, hv, hfc, h⟩
    · rw [h] at hin
      exact absurd hin hnot
    · rw [h] at hin
      rcases List.mem_append.mp hin with h1 | h1
      · exact absurd h1 hnot
      · rw [List.mem_singleton] at h1
        subst h1
        exact ⟨frequencyToCron_ok_type _ _ _ hfc, rfl, hv⟩
  · intro h0
    simp [createSchedule, createScheduleStart, h0]

/-- C11 as amended, at the request with frequencyValue -5 and at one with frequencyValue 0. -/
theorem C11_persisted_type_valid_value_present_witness :
    sampleNegativeRow ∈ (createSchedule (sampleReqWith (.num (-5))) sampleCreateEnv
        (Sys.fresh sampleStore)).2.store.schedules ∧
    sampleNegativeRow ∉ (Sys.fresh sampleStore).store.schedules ∧
    ((sampleNegativeRow.frequency_type = .str "minutes" ∨
        sampleNegativeRow.frequency_type = .str "hours" ∨
        sampleNegativeRow.frequency_type = .str "days") ∧
      sampleNegativeRow.frequency_type = (sampleReqWith (.num (-5))).frequencyType ∧
      (sampleReqWith (.num (-5))).frequencyValue.truthy = true) ∧
    (sampleReqWith (.num 0)).frequencyValue.truthy = false ∧
    createSchedule (sampleReqWith (.num 0)) sampleCreateEnv (Sys.fresh sampleStore) =
      (.json 400 [("error", "Missing required fields")], Sys.fresh sampleStore) :=
  ⟨by decide, by decide,
    (C11_persisted_type_valid_value_present (sampleReqWith (.num (-5))) sampleCreateEnv
      (Sys.fresh sampleStore)).1 sampleNegativeRow (by decide) (by decide),
    rfl,
    (C11_persisted_type_valid_value_present (sampleReqWith (.num 0)) sampleCreateEnv
      (Sys.fresh sampleStore)).2.1 rfl⟩

/-! ## The create handler on an accepted request -/

theorem insertSchedule_fresh (st : Store) (row : ScheduleRow)
    (hfresh : ∀ r ∈ st.schedules, r.id ≠ row.id) :
    st.insertSchedule true row = (true, { st with schedules := st.schedules ++ [row] }) := by
  have hany : st.schedules.any (fun r => r.id == row.id) = false := by
    rw [List.any_eq_false]
    intro r hr
    simpa using hfresh r hr
  simp [Store.insertSchedule, hany]

/-- The create handler, up to its first return to the event loop, on a request that passes the
guard, compiles to an expression that `cron.schedule` accepts, is accepted by the store and
names an existing script. -/
theorem createScheduleStart_accepted (req : CreateReq) (env : CreateEnv) (s : Sys)
    (cron : String) (script : ScriptRow)
    (h1 : req.scriptId.truthy = true) (h2 : req.frequencyType.truthy = true)
    (h3 : req.frequencyValue.truthy = true)
    (hfc : frequencyToCron req.frequencyType req.frequencyValue = .ok cron)
    (hins : env.insertOk = true) (hfresh : ∀ r ∈ s.store.schedules, r.id ≠ env.scheduleId)
    (hl : env.lookupOk = true) (hs : s.store.getScript req.scriptId = some script)
    (hacc : cronAccepts env.cronLib cron = true) :
    createScheduleStart req env s =
      if req.runImmediately.truthy = true then
        if insertAccepted env.fire s = true then
          .awaiting s.children.length (createdBody req env cron script)
            (executeScriptBegin env.fire env.scheduleId (scriptPathOf script.filename)
              script.type (registeredSys req env s cron script))
        else
          .done .unanswered
            (executeScriptBegin env.fire env.scheduleId (scriptPathOf script.filename)
              script.type (registeredSys req env s cron script))
      else .done (.json 200 (createdBody req env cron script))
        (registeredSys req env s cron script) := by
  have hs2 : ({ s.store with schedules := s.store.schedules ++
      [⟨env.scheduleId, req.scriptId, req.frequencyType, req.frequencyValue,
        req.startTime, req.endTime, true, cron⟩] } : Store).getScript req.scriptId
      = some script := hs
  have hrow := insertSchedule_fresh s.store
    ⟨env.scheduleId, req.scriptId, req.frequencyType, req.frequencyValue,
      req.startTime, req.endTime, true, cron⟩ hfresh
  unfold createScheduleStart
  simp only [h1, h2, h3, hfc, hins, hl, hacc, Bool.not_true, Bool.or_self, Bool.false_eq_true,
    if_false, if_true, hrow, hs2, updateAt_last]
  rfl

theorem childStep_frame (idx : Nat) (ev : ChildEvent) (s : Sys) :
    (childStep idx ev s).activeJobs = s.activeJobs ∧ (childStep idx ev s).tasks = s.tasks := by
  unfold childStep
  cases h : s.children.get? idx with
  | none => exact ⟨rfl, rfl⟩
  | some c => exact ⟨rfl, rfl⟩

theorem awaitChild_frame (idx : Nat) (evs : List ChildEvent) :
    ∀ s : Sys, (awaitChild idx evs s).activeJobs = s.activeJobs ∧
      (awaitChild idx evs s).tasks = s.tasks := by
  induction evs with
  | nil => intro s; exact ⟨rfl, rfl⟩
  | cons ev rest ih =>
    intro s
    unfold awaitChild
    split
    · exact childStep_frame idx ev s
    · exact ⟨(ih _).1.trans (childStep_frame idx ev s).1,
        (ih _).2.trans (childStep_frame idx ev s).2⟩

theorem triggerFire_frame (job : Nat) (env : FireEnv) (s : Sys) :
    (triggerFire job env s).activeJobs = s.activeJobs ∧ (triggerFire job env s).tasks = s.tasks := by
  unfold triggerFire
  split
  · exact ⟨rfl, rfl⟩
  · split
    · exact ⟨rfl, rfl⟩
    · exact ⟨rfl, rfl⟩

/-- No step of the running backend touches the registry or the tasks. -/
theorem step_frame (s t : Sys) (h : Step s t) : t.activeJobs = s.activeJobs ∧ t.tasks = s.tasks := by
  cases h with
  | fire job env hacc => exact triggerFire_frame job env s
  | immediate env scheduleId scriptPath scriptType hacc => exact ⟨rfl, rfl⟩
  | event idx ev hok => exact childStep_frame idx ev s

theorem reachable_frame (s0 : Sys) (t : Sys) (h : Reachable s0 t) :
    t.activeJobs = s0.activeJobs ∧ t.tasks = s0.tasks := by
  induction h with
  | init => exact ⟨rfl, rfl⟩
  | step _ hstep ih =>
    exact ⟨(step_frame _ _ hstep).1.trans ih.1, (step_frame _ _ hstep).2.trans ih.2⟩

/-! ## The record of an immediate run under the steps of the backend -/

theorem get?_updateAt {α : Type} (f : α → α) (l : List α) :
    ∀ (i j : Nat), (updateAt f i l).get? j =
      if j = i then (l.get? j).map f else l.get? j := by
  induction l with
  | nil => intro i j; cases i <;> simp [updateAt]
  | cons x xs ih =>
    intro i j
    cases i with
    | zero =>
      cases j with
      | zero => simp [updateAt]
      | succ j => simp [updateAt]
    | succ i =>
      cases j with
      | zero => simp [updateAt]
      | succ j =>
        simp only [updateAt, List.get?_cons_succ, ih i j, Nat.succ_eq_add_one,
          Nat.add_right_cancel_iff]

theorem filter_id_map_length (rows : List ExecutionRow) (g : ExecutionRow → ExecutionRow)
    (e : String) (hg : ∀ r, (g r).id = r.id) :
    ((rows.map g).filter (fun r => decide (r.id = e))).length =
      (rows.filter (fun r => decide (r.id = e))).length := by
  induction rows with
  | nil => rfl
  | cons r rs ih =>
    simp only [List.map_cons, List.filter_cons, hg r]
    split
    · simp only [List.length_cons, ih]
    · exact ih

theorem filter_id_fresh (rows : List ExecutionRow) (e : String)
    (h : ∀ r ∈ rows, r.id ≠ e) : rows.filter (fun r => decide (r.id = e)) = [] := by
  rw [List.filter_eq_nil_iff]
  intro r hr
  simpa using h r hr

theorem exists_of_filter_id (rows : List ExecutionRow) (e : String)
    (h : (rows.filter (fun r => decide (r.id = e))).length = 1) : ∃ r ∈ rows, r.id = e := by
  cases hf : rows.filter (fun r => decide (r.id = e)) with
  | nil => rw [hf] at h; cases h
  | cons r rs =>
    have hr : r ∈ rows.filter (fun r => decide (r.id = e)) := by
      rw [hf]
      exact List.mem_cons_self _ _
    rw [List.mem_filter] at hr
    exact ⟨r, hr.1, by simpa using hr.2⟩

/-- Transfer of `immediateRunRecorded` from a state to a later one in which the rows of the
executions table were rewritten without a change of id or schedule and without a return to
`running`, rows of other ids were appended, and the child kept its execution id. -/
theorem immediateRunRecorded_transfer (idx : Nat) (e sid : String) (s t : Sys)
    (g : ExecutionRow → ExecutionRow) (extra : List ExecutionRow)
    (hg : ∀ r, (g r).id = r.id ∧ (g r).schedule_id = r.schedule_id ∧
      (r.status ≠ "running" → (g r).status ≠ "running"))
    (hex : t.store.executions = s.store.executions.map g ++ extra)
    (hextra : ∀ r ∈ extra, r.id ≠ e)
    (hch : ∀ c : Child, s.children.get? idx = some c →
      ∃ c1 : Child, t.children.get? idx = some c1 ∧ c1.executionId = c.executionId ∧
        (c1.resolved.isSome = true → c.resolved.isSome = true ∨
          ∀ r, r.id = c.executionId → (g r).status ≠ "running"))
    (h : immediateRunRecorded idx e sid s) : immediateRunRecorded idx e sid t := by
  obtain ⟨⟨c, hc, hce⟩, hcount, hsid, hres⟩ := h
  obtain ⟨c1, hc1, hc1e, hc1r⟩ := hch c hc
  refine ⟨⟨c1, hc1, hc1e.trans hce⟩, ?_, ?_, ?_⟩
  · rw [hex, List.filter_append, List.length_append, filter_id_map_length _ _ _ (fun r => (hg r).1),
      hcount, filter_id_fresh _ _ hextra]
    rfl
  · intro r hr hre
    rw [hex] at hr
    rcases List.mem_append.mp hr with hr1 | hr1
    · obtain ⟨r0, hr0, rfl⟩ := List.mem_map.mp hr1
      rw [(hg r0).2.1]
      exact hsid r0 hr0 ((hg r0).1.symm.trans hre)
    · exact absurd hre (hextra r hr1)
  · intro hsome r hr hre
    have hsome1 : c1.resolved.isSome = true := by
      unfold resolvedOf at hsome
      rw [hc1] at hsome
      exact hsome
    rw [hex] at hr
    rcases List.mem_append.mp hr with hr1 | hr1
    · obtain ⟨r0, hr0, rfl⟩ := List.mem_map.mp hr1
      have hr0e : r0.id = e := (hg r0).1.symm.trans hre
      rcases hc1r hsome1 with hold | hnew
      · have hs0 : (resolvedOf idx s).isSome = true := by
          unfold resolvedOf
          rw [hc]
          exact hold
        exact (hg r0).2.2 (hres hs0 r0 hr0 hr0e)
      · exact hnew r0 (hr0e.trans hce.symm)
    · exact absurd hre (hextra r hr1)

theorem immediateRunRecorded_begin (idx : Nat) (e sid : String) (env : FireEnv)
    (scheduleId scriptPath scriptType : String) (s : Sys) (hacc : insertAccepted env s = true)
    (h : immediateRunRecorded idx e sid s) :
    immediateRunRecorded idx e sid (executeScriptBegin env scheduleId scriptPath scriptType s) := by
  obtain ⟨hins, hfresh⟩ := insertAccepted_fresh env s hacc
  obtain ⟨r0, hr0, hr0e⟩ := exists_of_filter_id _ _ h.2.1
  have hne : env.executionId ≠ e := fun heq => hfresh r0 hr0 (hr0e.trans heq.symm)
  refine immediateRunRecorded_transfer idx e sid s _ id
    [{ id := env.executionId, schedule_id := scheduleId, status := "running",
       started_at := env.startTime, finished_at := none, stdout := none, stderr := none,
       exit_code := none }] (fun r => ⟨rfl, rfl, fun hr => hr⟩) ?_ ?_ ?_ h
  · simp [executeScriptBegin, hins, insertExecution_fresh _ _ _ _ _ hfresh]
  · intro r hr
    rw [List.mem_singleton] at hr
    subst hr
    exact hne
  · intro c hc
    refine ⟨c, ?_, rfl, fun hr => Or.inl hr⟩
    show (s.children ++ _).get? idx = some c
    rw [List.get?_eq_getElem?] at hc ⊢
    have hlt : idx < s.children.length := by
      by_contra hge
      rw [List.getElem?_eq_none (Nat.le_of_not_lt hge)] at hc
      cases hc
    rw [List.getElem?_append_left hlt]
    exact hc

theorem immediateRunRecorded_event (idx : Nat) (e sid : String) (j : Nat) (ev : ChildEvent)
    (s : Sys) (hok : ev.writeOk = true) (h : immediateRunRecorded idx e sid s) :
    immediateRunRecorded idx e sid (childStep j ev s) := by
  unfold childStep
  cases hget : s.children.get? j with
  | none => exact h
  | some cj =>
    simp only
    cases ev with
    | stdoutData d =>
      refine immediateRunRecorded_transfer idx e sid s _ id []
        (fun r => ⟨rfl, rfl, fun hr => hr⟩) (by simp [handleEvent]) (by simp) ?_ h
      intro c hc
      simp only [get?_updateAt, hc]
      by_cases hij : idx = j
      · subst hij
        rw [hc] at hget
        cases hget
        exact ⟨(handleEvent (.stdoutData d) cj s.store).1, by simp, rfl, fun hr => Or.inl hr⟩
      · exact ⟨c, by simp [hij], rfl, fun hr => Or.inl hr⟩
    | stderrData d =>
      refine immediateRunRecorded_transfer idx e sid s _ id []
        (fun r => ⟨rfl, rfl, fun hr => hr⟩) (by simp [handleEvent]) (by simp) ?_ h
      intro c hc
      simp only [get?_updateAt, hc]
      by_cases hij : idx = j
      · subst hij
        rw [hc] at hget
        cases hget
        exact ⟨(handleEvent (.stderrData d) cj s.store).1, by simp, rfl, fun hr => Or.inl hr⟩
      · exact ⟨c, by simp [hij], rfl, fun hr => Or.inl hr⟩
    | close code ft ok =>
      have hok1 : ok = true := hok
      subst hok1
      refine immediateRunRecorded_transfer idx e sid s _
        (fun r => if r.id = cj.executionId then
          { r with status := exitStatus code, finished_at := some ft,
                   stdout := some cj.stdout, stderr := some cj.stderr, exit_code := code }
          else r) [] ?_ (by simp [handleEvent, Store.updateOnClose]) (by simp) ?_ h
      · intro r
        by_cases hid : r.id = cj.executionId
        · simp only [hid, if_true]
          exact ⟨trivial, trivial, fun _ => exitStatus_ne_running code⟩
        · simp only [hid, if_false]
          exact ⟨trivial, trivial, fun hr => hr⟩
      · intro c hc
        simp only [get?_updateAt, hc]
        by_cases hij : idx = j
        · subst hij
          rw [hc] at hget
          cases hget
          refine ⟨(handleEvent (.close code ft true) cj s.store).1, by simp, rfl, fun _ => Or.inr ?_⟩
          intro r hr
          simp only [hr, if_true]
          exact exitStatus_ne_running code
        · exact ⟨c, by simp [hij], rfl, fun hr => Or.inl hr⟩
    | error m ft ok =>
      have hok1 : ok = true := hok
      subst hok1
      refine immediateRunRecorded_transfer idx e sid s _
        (fun r => if r.id = cj.executionId then
          { r with status := "failed", finished_at := some ft, stderr := some m }
          else r) [] ?_ (by simp [handleEvent, Store.updateOnError]) (by simp) ?_ h
      · intro r
        by_cases hid : r.id = cj.executionId
        · simp only [hid, if_true]
          exact ⟨trivial, trivial, fun _ => by decide⟩
        · simp only [hid, if_false]
          exact ⟨trivial, trivial, fun hr => hr⟩
      · intro c hc
        simp only [get?_updateAt, hc]
        by_cases hij : idx = j
        · subst hij
          rw [hc] at hget
          cases hget
          refine ⟨(handleEvent (.error m ft true) cj s.store).1, by simp, rfl, fun _ => Or.inr ?_⟩
          intro r hr
          simp only [hr, if_true]
          decide
        · exact ⟨c, by simp [hij], rfl, fun hr => Or.inl hr⟩

theorem immediateRunRecorded_step (idx : Nat) (e sid : String) (s t : Sys) (hstep : Step s t)
    (h : immediateRunRecorded idx e sid s) : immediateRunRecorded idx e sid t := by
  cases hstep with
  | fire job env hacc =>
    unfold triggerFire
    split
    · exact h
    · split
      · exact immediateRunRecorded_begin idx e sid env _ _ _ s hacc h
      · exact h
  | immediate env scheduleId scriptPath scriptType hacc =>
    exact immediateRunRecorded_begin idx e sid env _ _ _ s hacc h
  | event j ev hok => exact immediateRunRecorded_event idx e sid j ev s hok h

theorem immediateRunRecorded_reachable (idx : Nat) (e sid : String) (s0 t : Sys)
    (hreach : Reachable s0 t) (h : immediateRunRecorded idx e sid s0) :
    immediateRunRecorded idx e sid t := by
  induction hreach with
  | init => exact h
  | step _ hstep ih => exact immediateRunRecorded_step idx e sid _ _ hstep ih

/-- The state in which `executeScript` returns its promise, the INSERT accepted, records the
run that it began. -/
theorem immediateRunRecorded_init (env : FireEnv) (scheduleId scriptPath scriptType : String)
    (s : Sys) (hacc : insertAccepted env s = true) :
    immediateRunRecorded s.children.length env.executionId scheduleId
      (executeScriptBegin env scheduleId scriptPath scriptType s) := by
  obtain ⟨hins, hfresh⟩ := insertAccepted_fresh env s hacc
  have hex : (executeScriptBegin env scheduleId scriptPath scriptType s).store.executions =
      s.store.executions ++
        [{ id := env.executionId, schedule_id := scheduleId, status := "running",
           started_at := env.startTime, finished_at := none, stdout := none, stderr := none,
           exit_code := none }] := by
    simp [executeScriptBegin, hins, insertExecution_fresh _ _ _ _ _ hfresh]
  refine ⟨⟨_, get?_last _ _, rfl⟩, ?_, ?_, ?_⟩
  · rw [hex, List.filter_append, filter_id_fresh _ _ hfresh]
    simp
  · intro r hr hre
    rw [hex] at hr
    rcases List.mem_append.mp hr with hr1 | hr1
    · exact absurd hre (hfresh r hr1)
    · rw [List.mem_singleton] at hr1
      subst hr1
      rfl
  · intro hsome
    have hnone : resolvedOf s.children.length
        (executeScriptBegin env scheduleId scriptPath scriptType s) = none := by
      simp [resolvedOf, executeScriptBegin, get?_last]
    rw [hnone] at hsome
    cases hsome

/-! ## C12: creation with and without an immediate run -/

/-- C12 fails in two ways. (1) The request ('days', 32) for an existing script, with
runImmediately set, has the three fields present and a valid frequency type, and compiles to
`0 0 */32 * *`; the row is persisted, then `cron.schedule` rejects the expression, whatever the
library decides on other texts: no response is sent, no trigger is registered, no Execution
record and no child exists. (2) For the request ('minutes', 5) with runImmediately set the
handler starts the trigger, begins the run and awaits the child with handle 0; the trigger
fires before the child closes, which is a step of the backend; when the child has closed with
code 0 the handler answers 200, and the new schedule then has two Execution records, one of
them still `running`. -/
theorem C12_no_response_or_second_execution :
    (sampleDaysReq.scriptId.truthy = true ∧ sampleDaysReq.frequencyType.truthy = true ∧
      sampleDaysReq.frequencyValue.truthy = true ∧
      frequencyToCron sampleDaysReq.frequencyType sampleDaysReq.frequencyValue
        = .ok "0 0 */32 * *" ∧
      (Sys.fresh sampleStore).store.getScript sampleDaysReq.scriptId = some sampleScript ∧
      (createSchedule sampleDaysReq sampleCreateEnv (Sys.fresh sampleStore)).1 = .unanswered ∧
      (createSchedule sampleDaysReq sampleLenientCreateEnv (Sys.fresh sampleStore)).1
        = .unanswered ∧
      (createSchedule sampleDaysReq sampleCreateEnv (Sys.fresh sampleStore)).2.activeJobs "s"
        = none ∧
      (createSchedule sampleDaysReq sampleCreateEnv (Sys.fresh sampleStore)).2.tasks = [] ∧
      (createSchedule sampleDaysReq sampleCreateEnv (Sys.fresh sampleStore)).2.children = [] ∧
      (createSchedule sampleDaysReq sampleCreateEnv
        (Sys.fresh sampleStore)).2.store.executions = [] ∧
      (createSchedule sampleDaysReq sampleCreateEnv
        (Sys.fresh sampleStore)).2.store.schedules.map (fun r => (r.id, r.cron_expression))
        = [("s", "0 0 */32 * *")]) ∧
    ((createScheduleStart (sampleCreateReq true) sampleCreateEnv
        (Sys.fresh sampleStore)).awaited =
        some (0, [("id", "s"), ("scriptName", "a.sh"), ("frequency", "5 minutes"),
          ("cronExpression", "*/5 * * * *"), ("message", "Schedule created successfully")]) ∧
      sampleAwaiting.tasks.map (fun t => (t.scheduleId, t.started)) = [("s", true)] ∧
      insertAccepted (fireEnvOf "f") sampleAwaiting = true ∧
      createScheduleResume 0
          [("id", "s"), ("scriptName", "a.sh"), ("frequency", "5 minutes"),
            ("cronExpression", "*/5 * * * *"), ("message", "Schedule created successfully")]
          sampleInterleaved =
        some (.json 200
          [("id", "s"), ("scriptName", "a.sh"), ("frequency", "5 minutes"),
            ("cronExpression", "*/5 * * * *"), ("message", "Schedule created successfully")]) ∧
      sampleInterleaved.store.executions =
        [{ id := "e", schedule_id := "s", status := "success", started_at := "t0",
           finished_at := some "t1", stdout := some "", stderr := some "",
           exit_code := some 0 },
         { id := "f", schedule_id := "s", status := "running", started_at := "t0",
           finished_at := none, stdout := none, stderr := none, exit_code := none }]) :=
  ⟨⟨rfl, rfl, rfl, rfl, by decide, by decide, by decide, by decide, by decide, by decide,
    by decide, by decide⟩,
   ⟨by decide, by decide, by decide, by decide, by decide⟩⟩

/-- C12 as amended: for every create-schedule request whose three required fields pass the
guard, whose frequency type compiles to an expression that `cron.schedule` accepts and whose
script exists, the store accepting the row under a new id. (a) Without runImmediately the
handler answers 200 with the new id and the compiled expression at once; the trigger is
created, registered under the id and started, and no Execution record and no child has been
created. (b) With runImmediately, the store accepting the INSERT of the run, the handler
registers and starts the trigger in the same way, creates exactly one Execution record of the
new schedule, `running`, and one child, and awaits that child without having answered. From
then on, through fires of any trigger, immediate runs of other requests and events of any
child, the store accepting their statements: the trigger stays registered; the handler
answers, with the same 200 body, exactly when the promise of its child is resolved; the
executions table holds exactly one record with the id of the run, it belongs to the new
schedule, and once the promise is resolved the UPDATE that takes it out of `running` has been
issued. (c), (d) When no other step comes between and the child ends, after any output, by a
close or by an error event, the store accepting the UPDATE, the handler answers 200 and the
executions table is the old one followed by exactly that record, in a terminal status. -/
theorem C12_create_with_accepted_expression (req : CreateReq) (env : CreateEnv) (s : Sys)
    (cron : String) (script : ScriptRow)
    (h1 : req.scriptId.truthy = true) (h2 : req.frequencyType.truthy = true)
    (h3 : req.frequencyValue.truthy = true)
    (hfc : frequencyToCron req.frequencyType req.frequencyValue = .ok cron)
    (hins : env.insertOk = true) (hfresh : ∀ r ∈ s.store.schedules, r.id ≠ env.scheduleId)
    (hl : env.lookupOk = true) (hs : s.store.getScript req.scriptId = some script)
    (hacc : cronAccepts env.cronLib cron = true) :
    (req.runImmediately.truthy = false →
      ∃ out : Sys,
        createScheduleStart req env s =
          .done (.json 200
            [("id", env.scheduleId), ("scriptName", script.name),
             ("frequency", req.frequencyValue.toStr ++ " " ++ req.frequencyType.toStr),
             ("cronExpression", cron), ("message", "Schedule created successfully")]) out ∧
        createSchedule req env s =
          (.json 200
            [("id", env.scheduleId), ("scriptName", script.name),
             ("frequency", req.frequencyValue.toStr ++ " " ++ req.frequencyType.toStr),
             ("cronExpression", cron), ("message", "Schedule created successfully")], out) ∧
        out.activeJobs = mapSet s.activeJobs env.scheduleId s.tasks.length ∧
        out.tasks = s.tasks ++
          [{ expression := cron, scheduleId := env.scheduleId, scriptName := script.name,
             scriptPath := scriptPathOf script.filename, scriptType := script.type,
             started := true }] ∧
        out.store.executions = s.store.executions ∧ out.children = s.children) ∧
    (req.runImmediately.truthy = true → insertAccepted env.fire s = true →
      ∃ out : Sys,
        createScheduleStart req env s =
          .awaiting s.children.length
            [("id", env.scheduleId), ("scriptName", script.name),
             ("frequency", req.frequencyValue.toStr ++ " " ++ req.frequencyType.toStr),
             ("cronExpression", cron), ("message", "Schedule created successfully")] out ∧
        out.activeJobs = mapSet s.activeJobs env.scheduleId s.tasks.length ∧
        out.tasks = s.tasks ++
          [{ expression := cron, scheduleId := env.scheduleId, scriptName := script.name,
             scriptPath := scriptPathOf script.filename, scriptType := script.type,
             started := true }] ∧
        out.store.executions = s.store.executions ++
          [{ id := env.fire.executionId, schedule_id := env.scheduleId, status := "running",
             started_at := env.fire.startTime, finished_at := none, stdout := none,
             stderr := none, exit_code := none }] ∧
        out.children = s.children ++
          [{ executionId := env.fire.executionId,
             command := if (script.type == "bat" || env.fire.isWindows) = true then "cmd"
               else "bash",
             args := if (script.type == "bat" || env.fire.isWindows) = true
               then ["/c", scriptPathOf script.filename] else [scriptPathOf script.filename],
             stdout := "", stderr := "", resolved := none }] ∧
        ∀ t : Sys, Reachable out t →
          t.activeJobs = out.activeJobs ∧ t.tasks = out.tasks ∧
          immediateRunRecorded s.children.length env.fire.executionId env.scheduleId t ∧
          ((resolvedOf s.children.length t).isSome = true →
            createScheduleResume s.children.length
              [("id", env.scheduleId), ("scriptName", script.name),
               ("frequency", req.frequencyValue.toStr ++ " " ++ req.frequencyType.toStr),
               ("cronExpression", cron), ("message", "Schedule created successfully")] t =
              some (.json 200
                [("id", env.scheduleId), ("scriptName", script.name),
                 ("frequency", req.frequencyValue.toStr ++ " " ++ req.frequencyType.toStr),
                 ("cronExpression", cron), ("message", "Schedule created successfully")])) ∧
          ((resolvedOf s.children.length t).isSome = false →
            createScheduleResume s.children.length
              [("id", env.scheduleId), ("scriptName", script.name),
               ("frequency", req.frequencyValue.toStr ++ " " ++ req.frequencyType.toStr),
               ("cronExpression", cron), ("message", "Schedule created successfully")] t =
              none)) ∧
    (req.runImmediately.truthy = true → insertAccepted env.fire s = true →
      ∀ (ds : List ChildEvent) (code : Option Int) (finishTime : String),
        (∀ e ∈ ds, e.isData = true) → env.events = ds ++ [.close code finishTime true] →
        (createSchedule req env s).1 = .json 200
            [("id", env.scheduleId), ("scriptName", script.name),
             ("frequency", req.frequencyValue.toStr ++ " " ++ req.frequencyType.toStr),
             ("cronExpression", cron), ("message", "Schedule created successfully")] ∧
        (createSchedule req env s).2.activeJobs =
          mapSet s.activeJobs env.scheduleId s.tasks.length ∧
        (createSchedule req env s).2.tasks = s.tasks ++
          [{ expression := cron, scheduleId := env.scheduleId, scriptName := script.name,
             scriptPath := scriptPathOf script.filename, scriptType := script.type,
             started := true }] ∧
        (createSchedule req env s).2.store.executions = s.store.executions ++
          [{ id := env.fire.executionId, schedule_id := env.scheduleId,
             status := exitStatus code, started_at := env.fire.startTime,
             finished_at := some finishTime, stdout := some (stdoutOf ds),
             stderr := some (stderrOf ds), exit_code := code }] ∧
        exitStatus code ≠ "running") ∧
    (req.runImmediately.truthy = true → insertAccepted env.fire s = true →
      ∀ (ds : List ChildEvent) (message finishTime : String),
        (∀ e ∈ ds, e.isData = true) → env.events = ds ++ [.error message finishTime true] →
        (createSchedule req env s).1 = .json 200
            [("id", env.scheduleId), ("scriptName", script.name),
             ("frequency", req.frequencyValue.toStr ++ " " ++ req.frequencyType.toStr),
             ("cronExpression", cron), ("message", "Schedule created successfully")] ∧
        (createSchedule req env s).2.activeJobs =
          mapSet s.activeJobs env.scheduleId s.tasks.length ∧
        (createSchedule req env s).2.tasks = s.tasks ++
          [{ expression := cron, scheduleId := env.scheduleId, scriptName := script.name,
             scriptPath := scriptPathOf script.filename, scriptType := script.type,
             started := true }] ∧
        (createSchedule req env s).2.store.executions = s.store.executions ++
          [{ id := env.fire.executionId, schedule_id := env.scheduleId,
             status := "failed", started_at := env.fire.startTime,
             finished_at := some finishTime, stdout := none,
             stderr := some message, exit_code := none }]) := by
  have hstart := createScheduleStart_accepted req env s cron script h1 h2 h3 hfc hins hfresh hl
    hs hacc
  refine ⟨?_, ?_, ?_, ?_⟩
  · intro hrun
    rw [hrun] at hstart
    simp only [Bool.false_eq_true, if_false] at hstart
    refine ⟨registeredSys req env s cron script, hstart, ?_, rfl, rfl, rfl, rfl⟩
    unfold createSchedule
    rw [hstart]
    rfl
  · intro hrun hfire
    rw [hrun, hfire] at hstart
    simp only [if_true] at hstart
    obtain ⟨hfi, hfe⟩ := insertAccepted_fresh env.fire s hfire
    refine ⟨_, hstart, rfl, rfl, ?_, ?_, ?_⟩
    · show ((registeredSys req env s cron script).store.insertExecution env.fire.insertOk
        env.fire.executionId env.scheduleId "running" env.fire.startTime).executions = _
      have hfe2 : ∀ r ∈ (registeredSys req env s cron script).store.executions,
          r.id ≠ env.fire.executionId := hfe
      rw [hfi, insertExecution_fresh _ _ _ _ _ hfe2]
      rfl
    · rfl
    · intro t ht
      have hframe := reachable_frame _ t ht
      have hrec := immediateRunRecorded_reachable s.children.length env.fire.executionId
        env.scheduleId _ t ht
        (immediateRunRecorded_init env.fire env.scheduleId (scriptPathOf script.filename)
          script.type (registeredSys req env s cron script) hfire)
      refine ⟨hframe.1, hframe.2, hrec, ?_, ?_⟩
      · intro hres
        simp [createScheduleResume, hres, createdBody]
      · intro hres
        simp [createScheduleResume, hres]
  · intro hrun hfire ds code finishTime hds hev
    rw [hrun, hfire] at hstart
    simp only [if_true] at hstart
    obtain ⟨hfi, hfe⟩ := insertAccepted_fresh env.fire s hfire
    obtain ⟨hr, hx⟩ := await_close (registeredSys req env s cron script) env.fire
      env.scheduleId (scriptPathOf script.filename) script.type ds code finishTime hfi hfe hds
    rw [← hev] at hr hx
    have hout : createSchedule req env s =
        (.json 200 (createdBody req env cron script),
          awaitChild s.children.length env.events
            (executeScriptBegin env.fire env.scheduleId (scriptPathOf script.filename)
              script.type (registeredSys req env s cron script))) := by
      unfold createSchedule
      rw [hstart]
      simp only [createScheduleResume]
      rw [show (registeredSys req env s cron script).children.length = s.children.length
        from rfl] at hr
      rw [hr]
      rfl
    rw [hout]
    refine ⟨rfl, ?_, ?_, hx, exitStatus_ne_running code⟩
    · exact (awaitChild_frame _ _ _).1
    · exact (awaitChild_frame _ _ _).2
  · intro hrun hfire ds message finishTime hds hev
    rw [hrun, hfire] at hstart
    simp only [if_true] at hstart
    obtain ⟨hfi, hfe⟩ := insertAccepted_fresh env.fire s hfire
    obtain ⟨hr, hx⟩ := await_error (registeredSys req env s cron script) env.fire
      env.scheduleId (scriptPathOf script.filename) script.type ds message finishTime hfi hfe hds
    rw [← hev] at hr hx
    have hout : createSchedule req env s =
        (.json 200 (createdBody req env cron script),
          awaitChild s.children.length env.events
            (executeScriptBegin env.fire env.scheduleId (scriptPathOf script.filename)
              script.type (registeredSys req env s cron script))) := by
      unfold createSchedule
      rw [hstart]
      simp only [createScheduleResume]
      rw [show (registeredSys req env s cron script).children.length = s.children.length
        from rfl] at hr
      rw [hr]
      rfl
    rw [hout]
    refine ⟨rfl, ?_, ?_, hx⟩
    · exact (awaitChild_frame _ _ _).1
    · exact (awaitChild_frame _ _ _).2

/-- C12 as amended, at the request ('minutes', 5) for the script of `sampleStore`: with
runImmediately set and a child that closes with exit code 0, and without it. -/
theorem C12_create_with_accepted_expression_witness :
    (sampleCreateReq true).scriptId.truthy = true ∧
    (sampleCreateReq true).frequencyType.truthy = true ∧
    (sampleCreateReq true).frequencyValue.truthy = true ∧
    frequencyToCron (sampleCreateReq true).frequencyType (sampleCreateReq true).frequencyValue
      = .ok "*/5 * * * *" ∧
    sampleCreateEnv.insertOk = true ∧
    (∀ r ∈ (Sys.fresh sampleStore).store.schedules, r.id ≠ sampleCreateEnv.scheduleId) ∧
    sampleCreateEnv.lookupOk = true ∧
    (Sys.fresh sampleStore).store.getScript (sampleCreateReq true).scriptId = some sampleScript ∧
    cronAccepts sampleCreateEnv.cronLib "*/5 * * * *" = true ∧
    (sampleCreateReq true).runImmediately.truthy = true ∧
    insertAccepted sampleCreateEnv.fire (Sys.fresh sampleStore) = true ∧
    (∀ e ∈ ([] : List ChildEvent), e.isData = true) ∧
    sampleCreateEnv.events = [] ++ [.close (some 0) "t1" true] ∧
    (createSchedule (sampleCreateReq true) sampleCreateEnv (Sys.fresh sampleStore)).1 =
      .json 200 [("id", "s"), ("scriptName", "a.sh"), ("frequency", "5 minutes"),
        ("cronExpression", "*/5 * * * *"), ("message", "Schedule created successfully")] ∧
    (createSchedule (sampleCreateReq true) sampleCreateEnv (Sys.fresh sampleStore)).2.store.executions
      = [{ id := "e", schedule_id := "s", status := "success", started_at := "t0",
           finished_at := some "t1", stdout := some "", stderr := some "",
           exit_code := some 0 }] ∧
    (sampleCreateReq false).runImmediately.truthy = false ∧
    (∃ out : Sys,
      createSchedule (sampleCreateReq false) sampleCreateEnv (Sys.fresh sampleStore) =
        (.json 200 [("id", "s"), ("scriptName", "a.sh"), ("frequency", "5 minutes"),
          ("cronExpression", "*/5 * * * *"), ("message", "Schedule created successfully")],
          out) ∧
      out.store.executions = [] ∧ out.children = []) :=
  ⟨rfl, rfl, rfl, rfl, rfl, by decide, rfl, by decide, by decide, rfl, by decide, by decide, rfl,
    ((C12_create_with_accepted_expression (sampleCreateReq true) sampleCreateEnv
      (Sys.fresh sampleStore) "*/5 * * * *" sampleScript rfl rfl rfl rfl rfl (by decide) rfl
      (by decide) (by decide)).2.2.1 rfl (by decide) [] (some 0) "t1" (by decide) rfl).1,
    ((C12_create_with_accepted_expression (sampleCreateReq true) sampleCreateEnv
      (Sys.fresh sampleStore) "*/5 * * * *" sampleScript rfl rfl rfl rfl rfl (by decide) rfl
      (by decide) (by decide)).2.2.1 rfl (by decide) [] (some 0) "t1" (by decide) rfl).2.2.2.1,
    rfl,
    (((C12_create_with_accepted_expression (sampleCreateReq false) sampleCreateEnv
      (Sys.fresh sampleStore) "*/5 * * * *" sampleScript rfl rfl rfl rfl rfl (by decide) rfl
      (by decide) (by decide)).1 rfl).imp
        (fun _ h => ⟨h.2.1, h.2.2.2.2.1, h.2.2.2.2.2⟩))⟩

/-! ## C15: creation for a script that does not exist -/

/-- C15: for every create-schedule request whose required fields pass the guard, whose
frequency type compiles and whose scriptId names no Script, the store accepting the row under
a new id, the handler answers 404 `Script not found` with activeJobs, the cron tasks, the
child processes and the Execution records unchanged, while the Schedule row inserted before
the lookup remains in the store, Active and referencing the missing script. -/
theorem C15_missing_script_leaves_row (req : CreateReq) (env : CreateEnv) (s : Sys)
    (cron : String)
    (h1 : req.scriptId.truthy = true) (h2 : req.frequencyType.truthy = true)
    (h3 : req.frequencyValue.truthy = true)
    (hfc : frequencyToCron req.frequencyType req.frequencyValue = .ok cron)
    (hins : env.insertOk = true) (hfresh : ∀ r ∈ s.store.schedules, r.id ≠ env.scheduleId)
    (hs : s.store.getScript req.scriptId = none) :
    (createSchedule req env s).1 = .json 404 [("error", "Script not found")] ∧
    (createSchedule req env s).2.activeJobs = s.activeJobs ∧
    (createSchedule req env s).2.tasks = s.tasks ∧
    (createSchedule req env s).2.children = s.children ∧
    (createSchedule req env s).2.store.executions = s.store.executions ∧
    (createSchedule req env s).2.store.scripts = s.store.scripts ∧
    (createSchedule req env s).2.store.schedules = s.store.schedules ++
      [{ id := env.scheduleId, script_id := req.scriptId,
         frequency_type := req.frequencyType, frequency_value := req.frequencyValue,
         start_time := req.startTime, end_time := req.endTime, is_active := true,
         cron_expression := cron }] := by
  have hs2 : ({ s.store with schedules := s.store.schedules ++
      [⟨env.scheduleId, req.scriptId, req.frequencyType, req.frequencyValue,
        req.startTime, req.endTime, true, cron⟩] } : Store).getScript req.scriptId
      = none := hs
  have hrow := insertSchedule_fresh s.store
    ⟨env.scheduleId, req.scriptId, req.frequencyType, req.frequencyValue,
      req.startTime, req.endTime, true, cron⟩ hfresh
  have hmatch : (if env.lookupOk = true then
      ({ s.store with schedules := s.store.schedules ++
        [⟨env.scheduleId, req.scriptId, req.frequencyType, req.frequencyValue,
          req.startTime, req.endTime, true, cron⟩] } : Store).getScript req.scriptId
      else none) = none := by
    split
    · exact hs2
    · rfl
  unfold createSchedule createScheduleStart
  simp only [h1, h2, h3, hfc, hins, Bool.not_true, Bool.or_self, Bool.false_eq_true,
    if_false, hrow, hmatch, and_self]

/-- C15 at a request for the script id `gone`, which the store does not hold. -/
theorem C15_missing_script_leaves_row_witness :
    sampleMissingReq.scriptId.truthy = true ∧ sampleMissingReq.frequencyType.truthy = true ∧
    sampleMissingReq.frequencyValue.truthy = true ∧
    frequencyToCron sampleMissingReq.frequencyType sampleMissingReq.frequencyValue
      = .ok "*/5 * * * *" ∧
    sampleCreateEnv.insertOk = true ∧
    (∀ r ∈ (Sys.fresh sampleStore).store.schedules, r.id ≠ sampleCreateEnv.scheduleId) ∧
    (Sys.fresh sampleStore).store.getScript sampleMissingReq.scriptId = none ∧
    (createSchedule sampleMissingReq sampleCreateEnv (Sys.fresh sampleStore)).1
      = .json 404 [("error", "Script not found")] ∧
    (createSchedule sampleMissingReq sampleCreateEnv (Sys.fresh sampleStore)).2.store.schedules
      = [{ id := "s", script_id := .str "gone", frequency_type := .str "minutes",
           frequency_value := .num 5, start_time := .undefined, end_time := .undefined,
           is_active := true, cron_expression := "*/5 * * * *" }] ∧
    (createSchedule sampleMissingReq sampleCreateEnv (Sys.fresh sampleStore)).2.store.executions
      = [] :=
  ⟨rfl, rfl, rfl, rfl, rfl, by decide, by decide,
    (C15_missing_script_leaves_row sampleMissingReq sampleCreateEnv (Sys.fresh sampleStore)
      "*/5 * * * *" rfl rfl rfl rfl rfl (by decide) (by decide)).1,
    (C15_missing_script_leaves_row sampleMissingReq sampleCreateEnv (Sys.fresh sampleStore)
      "*/5 * * * *" rfl rfl rfl rfl rfl (by decide) (by decide)).2.2.2.2.2.2,
    (C15_missing_script_leaves_row sampleMissingReq sampleCreateEnv (Sys.fresh sampleStore)
      "*/5 * * * *" rfl rfl rfl rfl rfl (by decide) (by decide)).2.2.2.2.1⟩

/-! ## The delete handler -/

theorem stopJob_store (id : String) (s : Sys) :
    (stopJob id s).store = s.store ∧ (stopJob id s).children = s.children := by
  unfold stopJob
  cases h : s.activeJobs id with
  | none => exact ⟨rfl, rfl⟩
  | some job => exact ⟨rfl, rfl⟩

theorem stopJob_activeJobs (id : String) (s : Sys) :
    (stopJob id s).activeJobs = mapDelete s.activeJobs id := by
  unfold stopJob
  cases h : s.activeJobs id with
  | none =>
    funext x
    by_cases hx : x = id
    · simp [mapDelete, hx, h]
    · simp [mapDelete, hx]
  | some job => rfl

theorem stopJob_unregistered (id : String) (s : Sys) (h : s.activeJobs id = none) :
    stopJob id s = s := by
  unfold stopJob
  rw [h]

/-- The delete handler when the store accepts the UPDATE: 404 when no row has the id, 200
otherwise, in the state where the job is stopped and unregistered and the rows with the id are
inactive. -/
theorem deleteSchedule_accepted (id : String) (env : DeleteEnv) (s : Sys)
    (hok : env.updateOk = true) :
    deleteSchedule id env s =
      (if (s.store.schedules.filter (fun r => decide (r.id = id))).length = 0 then
          .json 404 [("error", "Schedule not found")]
        else .json 200 [("message", "Schedule deleted successfully")],
       { store := { s.store with schedules := s.store.schedules.map (fun r =>
            if r.id = id then { r with is_active := false } else r) }
         activeJobs := mapDelete s.activeJobs id
         tasks := (stopJob id s).tasks
         children := s.children }) := by
  unfold deleteSchedule Store.deactivateSchedule
  simp only [hok, if_true, (stopJob_store id s).1]
  split
  · rw [← stopJob_activeJobs, ← (stopJob_store id s).2]
  · rw [← stopJob_activeJobs, ← (stopJob_store id s).2]

theorem filter_id_length_zero (rows : List ScheduleRow) (id : String) :
    (rows.filter (fun r => decide (r.id = id))).length = 0 ↔ ∀ r ∈ rows, r.id ≠ id := by
  rw [List.length_eq_zero, List.filter_eq_nil_iff]
  constructor
  · intro h r hr
    simpa using h r hr
  · intro h r hr
    simpa using h r hr

theorem map_deactivate_none (rows : List ScheduleRow) (id : String)
    (h : ∀ r ∈ rows, r.id ≠ id) :
    rows.map (fun r => if r.id = id then { r with is_active := false } else r) = rows := by
  induction rows with
  | nil => rfl
  | cons r rs ih =>
    have h1 : r.id ≠ id := h r (List.mem_cons_self _ _)
    have h2 : ∀ x ∈ rs, x.id ≠ id := fun x hx => h x (List.mem_cons_of_mem _ hx)
    simp [h1, ih h2]

theorem map_deactivate_twice (rows : List ScheduleRow) (id : String) :
    (rows.map (fun r => if r.id = id then { r with is_active := false } else r)).map
      (fun r => if r.id = id then { r with is_active := false } else r) =
    rows.map (fun r => if r.id = id then { r with is_active := false } else r) := by
  rw [List.map_map]
  apply List.map_congr_left
  intro r _
  by_cases h : r.id = id
  · simp [h]
  · simp [h]

/-- Stopping the task at a position whose task is not selected by `p`, before or after, keeps
the tasks selected by `p`. -/
theorem filter_updateAt_other (p : CronTask → Bool) (f : CronTask → CronTask) :
    ∀ (job : Nat) (tasks : List CronTask),
      (∀ t, tasks.get? job = some t → p t = false ∧ p (f t) = false) →
      (updateAt f job tasks).filter p = tasks.filter p := by
  intro job tasks
  induction tasks generalizing job with
  | nil => intro _; simp [updateAt]
  | cons x xs ih =>
    intro h
    cases job with
    | zero =>
      obtain ⟨h1, h2⟩ := h x rfl
      simp [updateAt, List.filter_cons, h1, h2]
    | succ j =>
      have h' : ∀ t, xs.get? j = some t → p t = false ∧ p (f t) = false := by
        intro t ht
        exact h t (by simpa using ht)
      simp [updateAt, List.filter_cons, ih j h']

/-! ## C13, C14: deletion -/

/-- C13: for every store, registry and id, the store accepting the UPDATE, the delete handler
answers 404 `Schedule not found` if and only if the store holds no Schedule with that id, and
in that case leaves the store unchanged; for an id whose Schedule exists it answers success,
whether that Schedule is Active or already Inactive. -/
theorem C13_delete_not_found_iff_absent (id : String) (env : DeleteEnv) (s : Sys)
    (hok : env.updateOk = true) :
    ((deleteSchedule id env s).1 = .json 404 [("error", "Schedule not found")] ↔
      ∀ r ∈ s.store.schedules, r.id ≠ id) ∧
    ((∀ r ∈ s.store.schedules, r.id ≠ id) → (deleteSchedule id env s).2.store = s.store) ∧
    (∀ r ∈ s.store.schedules, r.id = id →
      (deleteSchedule id env s).1 = .json 200 [("message", "Schedule deleted successfully")]) := by
  rw [deleteSchedule_accepted id env s hok]
  refine ⟨?_, ?_, ?_⟩
  · simp only
    rw [← filter_id_length_zero]
    constructor
    · intro h
      by_contra hne
      rw [if_neg hne] at h
      exact absurd h (by decide)
    · intro h
      rw [if_pos h]
  · intro h
    simp only [map_deactivate_none _ _ h]
  · intro r hr hid
    have hne : ¬ (s.store.schedules.filter (fun r => decide (r.id = id))).length = 0 := by
      rw [filter_id_length_zero]
      intro h
      exact h r hr hid
    simp only [if_neg hne]

/-- C13 at the started backend with the one schedule `s`: deleting `zz` is answered 404,
deleting `s` is answered with success. -/
theorem C13_delete_not_found_iff_absent_witness :
    sampleDeleteEnv.updateOk = true ∧
    (∀ r ∈ sampleLoaded.store.schedules, r.id ≠ "zz") ∧
    (deleteSchedule "zz" sampleDeleteEnv sampleLoaded).1 =
      .json 404 [("error", "Schedule not found")] ∧
    (deleteSchedule "zz" sampleDeleteEnv sampleLoaded).2.store = sampleLoaded.store ∧
    (deleteSchedule "s" sampleDeleteEnv sampleLoaded).1 =
      .json 200 [("message", "Schedule deleted successfully")] ∧
    (deleteSchedule "s" sampleDeleteEnv (deleteSchedule "s" sampleDeleteEnv sampleLoaded).2).1 =
      .json 200 [("message", "Schedule deleted successfully")] :=
  ⟨rfl, by decide,
    (C13_delete_not_found_iff_absent "zz" sampleDeleteEnv sampleLoaded rfl).1.mpr (by decide),
    (C13_delete_not_found_iff_absent "zz" sampleDeleteEnv sampleLoaded rfl).2.1 (by decide),
    by decide, by decide⟩

/-- C14: for every store, registry and id, the store accepting the UPDATE, after one delete no
trigger is registered under the id and every Schedule with that id is Inactive; the registry
entries of the other ids, the rows of the other schedules, the scripts, the Execution records
and the child processes are unchanged, and so are the cron tasks of the other schedules when
every handle is a task of its own schedule; a second delete of the same id yields exactly the
state of the first; deleting an id with no registered trigger leaves the registry and the
cron tasks as they were. -/
theorem C14_delete_idempotent_and_local (id : String) (env : DeleteEnv) (s : Sys)
    (hok : env.updateOk = true) :
    (deleteSchedule id env s).2.activeJobs id = none ∧
    (∀ r ∈ (deleteSchedule id env s).2.store.schedules, r.id = id → r.is_active = false) ∧
    (∀ k : String, k ≠ id → (deleteSchedule id env s).2.activeJobs k = s.activeJobs k) ∧
    (deleteSchedule id env s).2.store.schedules =
      s.store.schedules.map (fun r => if r.id = id then { r with is_active := false } else r) ∧
    (deleteSchedule id env s).2.store.schedules.filter (fun r => decide (r.id ≠ id)) =
      s.store.schedules.filter (fun r => decide (r.id ≠ id)) ∧
    (deleteSchedule id env s).2.store.executions = s.store.executions ∧
    (deleteSchedule id env s).2.store.scripts = s.store.scripts ∧
    (deleteSchedule id env s).2.children = s.children ∧
    (handlesValid s →
      (deleteSchedule id env s).2.tasks.filter (fun t => decide (t.scheduleId ≠ id)) =
        s.tasks.filter (fun t => decide (t.scheduleId ≠ id))) ∧
    (deleteSchedule id env (deleteSchedule id env s).2).2 = (deleteSchedule id env s).2 ∧
    (s.activeJobs id = none →
      (deleteSchedule id env s).2.activeJobs = s.activeJobs ∧
      (deleteSchedule id env s).2.tasks = s.tasks) := by
  have hdel : ((deleteSchedule id env s).2.activeJobs id = none) := by
    rw [deleteSchedule_accepted id env s hok]
    simp [mapDelete]
  refine ⟨hdel, ?_, ?_, ?_, ?_, ?_, ?_, ?_, ?_, ?_, ?_⟩
  · rw [deleteSchedule_accepted id env s hok]
    intro r hr hid
    simp only [List.mem_map] at hr
    obtain ⟨x, -, hx⟩ := hr
    by_cases h : x.id = id
    · rw [if_pos h] at hx
      rw [← hx]
    · rw [if_neg h] at hx
      rw [hx] at h
      exact absurd hid h
  · intro k hk
    rw [deleteSchedule_accepted id env s hok]
    simp [mapDelete, hk]
  · rw [deleteSchedule_accepted id env s hok]
  · rw [deleteSchedule_accepted id env s hok]
    simp only [List.filter_map]
    induction s.store.schedules with
    | nil => rfl
    | cons r rs ih =>
      by_cases h : r.id = id
      · simp only [List.filter_cons, Function.comp, h, if_true]
        simpa using ih
      · simp only [List.filter_cons, Function.comp, h, if_false, List.map_cons]
        simpa [h] using ih
  · rw [deleteSchedule_accepted id env s hok]
  · rw [deleteSchedule_accepted id env s hok]
  · rw [deleteSchedule_accepted id env s hok]
  · intro hv
    rw [deleteSchedule_accepted id env s hok]
    simp only
    unfold stopJob
    cases hj : s.activeJobs id with
    | none => rfl
    | some job =>
      obtain ⟨t0, ht0, hsid, -⟩ := hv id job hj
      apply filter_updateAt_other
      intro t ht
      rw [ht0] at ht
      cases ht
      simp [hsid]
  · have hout : (deleteSchedule id env s).2.activeJobs id = none := hdel
    rw [deleteSchedule_accepted id env (deleteSchedule id env s).2 hok]
    rw [stopJob_unregistered id _ hout]
    rw [deleteSchedule_accepted id env s hok]
    simp only [map_deactivate_twice, Sys.mk.injEq, true_and, and_true]
    funext x
    by_cases hx : x = id
    · simp [mapDelete, hx]
    · simp [mapDelete, hx]
  · intro hnone
    rw [deleteSchedule_accepted id env s hok]
    simp only [stopJob_unregistered id s hnone, and_true]
    funext x
    by_cases hx : x = id
    · simp [mapDelete, hx, hnone]
    · simp [mapDelete, hx]

/-- C14 at the started backend with the one schedule `s`: after the delete of `s` nothing is
registered under `s`, its row is inactive, its task is stopped, and a second delete changes
nothing. -/
theorem C14_delete_idempotent_and_local_witness :
    sampleDeleteEnv.updateOk = true ∧
    sampleLoaded.activeJobs "s" = some 0 ∧
    (deleteSchedule "s" sampleDeleteEnv sampleLoaded).2.activeJobs "s" = none ∧
    (deleteSchedule "s" sampleDeleteEnv sampleLoaded).2.store.schedules.map
      (fun r => (r.id, r.is_active)) = [("s", false)] ∧
    (deleteSchedule "s" sampleDeleteEnv sampleLoaded).2.tasks.map (fun t => t.started) = [false] ∧
    (deleteSchedule "s" sampleDeleteEnv (deleteSchedule "s" sampleDeleteEnv sampleLoaded).2).2 =
      (deleteSchedule "s" sampleDeleteEnv sampleLoaded).2 :=
  ⟨rfl, by decide,
    (C14_delete_idempotent_and_local "s" sampleDeleteEnv sampleLoaded rfl).1,
    by decide, by decide,
    (C14_delete_idempotent_and_local "s" sampleDeleteEnv sampleLoaded rfl).2.2.2.2.2.2.2.2.2.1⟩

end ScriptScheduler

